import Mathlib

/-!
Verification of the cuttlefish service composition and resource provisioning
layer (`host/commands/run_cvd/launch.cc`) and of the reconnecting bridge
forwarder (`host/commands/bt_connector/main.cpp`).

The embedding keeps the source structure: a `Command` is a binary path plus an
ordered list of parameters, each parameter an ordered list of pieces (plain
strings or bound descriptors); OS interaction is explicit state passing over a
`Sys` value holding a `World` (oracle outcomes for mkfifo / open / bind /
pipe / mkdir plus a descriptor counter) and an append-only event trace of the
resource-creation operations performed.
-/

namespace Cuttlefish

/-- One piece of a command-line parameter: a plain string or a bound
descriptor (`SharedFD`) whose numeric value is resolved at spawn time. -/
inductive ArgPiece where
  | str (s : String)
  | fd (n : Nat)
deriving DecidableEq, Repr

/-- `Command` from `common/libs/utils/subprocess.h` as used by launch.cc:
an executable path plus an ordered list of parameters, each parameter the
concatenation of its pieces. -/
structure Command where
  executable : String
  args : List (List ArgPiece)
deriving DecidableEq, Repr

def Command.create (exe : String) : Command := ⟨exe, []⟩

def Command.AddParameter (c : Command) (pieces : List ArgPiece) : Command :=
  { c with args := c.args ++ [pieces] }

def Command.AppendToLastParameter (c : Command) (p : ArgPiece) : Command :=
  { c with args := c.args.dropLast ++ [c.args.getLastD [] ++ [p]] }

/-- A `SharedFD`: a descriptor handle plus its open flag (`IsOpen`). -/
structure SharedFD where
  fd : Nat
  isOpen : Bool
deriving DecidableEq, Repr

/-- The outcome oracles of the surrounding OS: whether each filesystem path
currently exists, whether creating / opening / binding succeeds, and how many
anonymous pipe calls have been made so far. These determine every branch the
launch code takes; only `World.nextFd` (the numbering of freshly allocated
descriptors) is left out. -/
@[ext]
structure Oracles where
  pathExists : String → Bool
  fifoOk : String → Bool
  openOk : String → Bool
  bindOk : Nat → Bool
  dirExists : String → Bool
  mkdirOk : String → Bool
  fileExists : String → Bool
  pipeOk : Nat → Bool
  pipeCalls : Nat

@[ext]
structure World where
  oracles : Oracles
  nextFd : Nat

/-- Resource-creation events, recorded in program order. -/
inductive Event where
  | unlink (path : String)
  | mkfifo (path : String) (mode : Nat) (ok : Bool)
  | openFile (path : String) (ok : Bool)
  | pipe (ok : Bool)
  | vsockServer (port : Nat) (ok : Bool)
  | mkdir (path : String) (ok : Bool)
deriving DecidableEq, Repr

/-- Explicit OS state: the world plus the trace of events so far. -/
@[ext]
structure Sys where
  w : World
  events : List Event

/-- `unlink(path)`: removes the filesystem entry; always succeeds in the
sense the launch code uses it (return value ignored). -/
def Sys.unlink (s : Sys) (p : String) : Sys :=
  { w := { s.w with oracles := { s.w.oracles with
      pathExists := fun q => if q = p then false else s.w.oracles.pathExists q } },
    events := s.events ++ [.unlink p] }

/-- `mkfifo(path, mode)`: fails when the path already exists or the oracle
denies creation; on success the path exists afterwards. -/
def Sys.mkfifo (s : Sys) (p : String) (mode : Nat) : Bool × Sys :=
  let ok := !s.w.oracles.pathExists p && s.w.oracles.fifoOk p
  (ok,
   { w := { s.w with oracles := { s.w.oracles with
       pathExists := fun q =>
         if q = p then (ok || s.w.oracles.pathExists q) else s.w.oracles.pathExists q } },
     events := s.events ++ [.mkfifo p mode ok] })

/-- `SharedFD::Open(path, O_RDWR)`: on success returns a fresh open
descriptor; on failure an unopened `SharedFD` (the code checks `IsOpen`). -/
def Sys.openRdwr (s : Sys) (p : String) : SharedFD × Sys :=
  if s.w.oracles.openOk p then
    (⟨s.w.nextFd, true⟩,
     { w := { s.w with nextFd := s.w.nextFd + 1 },
       events := s.events ++ [.openFile p true] })
  else
    (⟨0, false⟩, { s with events := s.events ++ [.openFile p false] })

/-- `SharedFD::VsockServer(port, SOCK_STREAM)`. -/
def Sys.vsockServer (s : Sys) (port : Nat) : SharedFD × Sys :=
  if s.w.oracles.bindOk port then
    (⟨s.w.nextFd, true⟩,
     { w := { s.w with nextFd := s.w.nextFd + 1 },
       events := s.events ++ [.vsockServer port true] })
  else
    (⟨0, false⟩, { s with events := s.events ++ [.vsockServer port false] })

/-- `SharedFD::Pipe(&read_end, &write_end)`: returns success plus the read
and write ends; `pipe(2)` yields the read end first. -/
def Sys.pipe (s : Sys) : (Bool × SharedFD × SharedFD) × Sys :=
  let c := s.w.oracles.pipeCalls
  if s.w.oracles.pipeOk c then
    ((true, ⟨s.w.nextFd, true⟩, ⟨s.w.nextFd + 1, true⟩),
     { w := { oracles := { s.w.oracles with pipeCalls := c + 1 },
              nextFd := s.w.nextFd + 2 },
       events := s.events ++ [.pipe true] })
  else
    ((false, ⟨0, false⟩, ⟨0, false⟩),
     { w := { s.w with oracles := { s.w.oracles with pipeCalls := c + 1 } },
       events := s.events ++ [.pipe false] })

/-- `DirectoryExists(path)` (read-only check, no event). -/
def Sys.directoryExists (s : Sys) (p : String) : Bool := s.w.oracles.dirExists p

/-- `mkdir(path, perms)`. -/
def Sys.mkdir (s : Sys) (p : String) : Bool × Sys :=
  if s.w.oracles.mkdirOk p then
    (true,
     { w := { s.w with oracles := { s.w.oracles with
         dirExists := fun q => if q = p then true else s.w.oracles.dirExists q } },
       events := s.events ++ [.mkdir p true] })
  else (false, { s with events := s.events ++ [.mkdir p false] })

/-- `FileExists(path)` (read-only check, no event). -/
def Sys.fileExists (s : Sys) (p : String) : Bool := s.w.oracles.fileExists p

/-- `CuttlefishConfig::enable_metrics()` answer type. -/
inductive MetricsAnswer where
  | kUnknown | kNo | kYes
deriving DecidableEq, Repr

/-- Membership view of `config.secure_hals()` for the two HALs queried. -/
structure SecureHalSet where
  keymint : Bool
  gatekeeper : Bool
deriving DecidableEq, Repr

/-- The configuration fields read by launch.cc (a read-only view). -/
structure CuttlefishConfig where
  enable_host_bluetooth : Bool
  enable_metrics : MetricsAnswer
  enable_gnss_grpc_proxy : Bool
  enable_vehicle_hal_grpc_server : Bool
  vehicle_hal_grpc_server_binary : String
  console : Bool
  secure_hals : SecureHalSet
deriving DecidableEq, Repr

/-- The per-instance configuration fields read by launch.cc. -/
structure InstanceSpecific where
  kernel_log_pipe_name : String
  logcat_pipe_name : String
  config_server_port : Nat
  tombstone_receiver_port : Nat
  rootcanal_test_port : Nat
  rootcanal_hci_port : Nat
  rootcanal_link_port : Nat
  rootcanal_config_file : String
  rootcanal_default_commands_file : String
  gnss_in_pipe_name : String
  gnss_out_pipe_name : String
  gnss_grpc_proxy_server_port : Nat
  gnss_file_path : String
  vehicle_hal_server_port : Nat
  console_in_pipe_name : String
  console_out_pipe_name : String
  instanceDir : String
  instanceInternalDir : String
deriving DecidableEq, Repr

def InstanceSpecific.PerInstancePath (inst : InstanceSpecific) (p : String) : String :=
  inst.instanceDir ++ "/" ++ p

def InstanceSpecific.PerInstanceInternalPath (inst : InstanceSpecific) (p : String) : String :=
  inst.instanceInternalDir ++ "/" ++ p

/-- Modelled from the spec: binary locations come from `known_paths.h` and the
host-artifact path helpers, which are not among the provided sources; each is
an opaque path string. -/
def KernelLogMonitorBinary : String := "bin/kernel_log_monitor"

def RootCanalBinary : String := "bin/root-canal"

def LogcatReceiverBinary : String := "bin/logcat_receiver"

def ConfigServerBinary : String := "bin/config_server"

def TombstoneReceiverBinary : String := "bin/tombstone_receiver"

def MetricsBinary : String := "bin/metrics"

def GnssGrpcProxyBinary : String := "bin/gnss_grpc_proxy"

def ConsoleForwarderBinary : String := "bin/console_forwarder"

def DefaultHostArtifactsPath (p : String) : String := "artifacts/" ++ p

def HostBinaryPath (p : String) : String := "host/" ++ p

/-- Modelled from the spec: `AbsolutePath` is a pure path normalizer from
`common/libs/utils/files.h`, not among the provided sources; modelled as the
identity on the already-absolute per-instance paths used here. -/
def AbsolutePath (p : String) : String := p

/-- Modelled from the spec: the `RunnerExitCodes` values live in
`runner_defs.h`, which is not among the provided sources; the spec requires
only small positive integers, one per fatal failure category. -/
def RunnerExitCodes.kPipeIOError : Nat := 1

def RunnerExitCodes.kConfigServerError : Nat := 2

def RunnerExitCodes.kTombstoneServerError : Nat := 3

def RunnerExitCodes.kTombstoneDirCreationError : Nat := 4

/-- Result of one service's `Commands()`: either a (possibly empty) command
list, or termination of the whole orchestrator via `std::exit(code)`. -/
inductive SvcResult where
  | ok (cmds : List Command)
  | exit (code : Nat)
deriving DecidableEq, Repr

/-- `RootCanal::Commands` (launch.cc lines 91-111). -/
def RootCanal.Commands (config : CuttlefishConfig) (inst : InstanceSpecific)
    (s : Sys) : SvcResult × Sys :=
  if !config.enable_host_bluetooth then (.ok [], s)
  else
    let command := Command.create RootCanalBinary
    let command := command.AddParameter [.str (toString inst.rootcanal_test_port)]
    let command := command.AddParameter [.str (toString inst.rootcanal_hci_port)]
    let command := command.AddParameter [.str (toString inst.rootcanal_link_port)]
    let command := command.AddParameter
      [.str "--controller_properties_file=", .str inst.rootcanal_config_file]
    let command := command.AddParameter
      [.str "--default_commands_file=", .str inst.rootcanal_default_commands_file]
    (.ok [command], s)

/-- `LogcatReceiver::Commands` (launch.cc lines 123-141). -/
def LogcatReceiver.Commands (inst : InstanceSpecific) (s : Sys) : SvcResult × Sys :=
  let log_name := inst.logcat_pipe_name
  let (ok, s) := s.mkfifo log_name 0o600
  if !ok then (.ok [], s)
  else
    let (pipe, s) := s.openRdwr log_name
    let command := (Command.create LogcatReceiverBinary).AddParameter
      [.str "-log_pipe_fd=", .fd pipe.fd]
    (.ok [command], s)

/-- `ConfigServer::Commands` (launch.cc lines 152-163). -/
def ConfigServer.Commands (inst : InstanceSpecific) (s : Sys) : SvcResult × Sys :=
  let port := inst.config_server_port
  let (socket, s) := s.vsockServer port
  if !socket.isOpen then (.exit RunnerExitCodes.kConfigServerError, s)
  else
    let cmd := (Command.create ConfigServerBinary).AddParameter
      [.str "-server_fd=", .fd socket.fd]
    (.ok [cmd], s)

/-- The socket-bind and command-construction tail of
`TombstoneReceiver::Commands` (launch.cc lines 187-199), reached once the
tombstone directory is known to exist. -/
def TombstoneReceiver.bindAndCommand (inst : InstanceSpecific)
    (tombstoneDir : String) (s : Sys) : SvcResult × Sys :=
  let r := s.vsockServer inst.tombstone_receiver_port
  if !r.1.isOpen then (.exit RunnerExitCodes.kTombstoneServerError, r.2)
  else
    let cmd := (Command.create TombstoneReceiverBinary).AddParameter
      [.str "-server_fd=", .fd r.1.fd]
    let cmd := cmd.AddParameter [.str "-tombstone_dir=", .str tombstoneDir]
    (.ok [cmd], r.2)

/-- `TombstoneReceiver::Commands` (launch.cc lines 174-200). -/
def TombstoneReceiver.Commands (inst : InstanceSpecific) (s : Sys) : SvcResult × Sys :=
  let tombstoneDir := inst.PerInstancePath "tombstones"
  if !(s.directoryExists tombstoneDir) then
    let r := s.mkdir tombstoneDir
    if !r.1 then (.exit RunnerExitCodes.kTombstoneDirCreationError, r.2)
    else TombstoneReceiver.bindAndCommand inst tombstoneDir r.2
  else TombstoneReceiver.bindAndCommand inst tombstoneDir s

/-- `MetricsService::Commands` (launch.cc lines 210-215). -/
def MetricsService.Commands (config : CuttlefishConfig) (s : Sys) : SvcResult × Sys :=
  if config.enable_metrics ≠ MetricsAnswer.kYes then (.ok [], s)
  else (.ok [Command.create MetricsBinary], s)

/-- The create-two-fifos-then-open-both sequence duplicated in the source
between `GnssGrpcProxyServer::Commands` (launch.cc lines 236-268) and
`ConsoleForwarder::Commands` (launch.cc lines 427-459): mkfifo the input pipe
with mode 0600, mkfifo the output pipe with mode 0660, open the input pipe
read/write, open the output pipe read/write, stopping at the first failure. -/
def inOutPipes (inName outName : String) (s : Sys) :
    Option (SharedFD × SharedFD) × Sys :=
  let r := s.mkfifo inName 0o600
  if !r.1 then (none, r.2)
  else
    let r2 := r.2.mkfifo outName 0o660
    if !r2.1 then (none, r2.2)
    else
      let r3 := r2.2.openRdwr inName
      if !r3.1.isOpen then (none, r3.2)
      else
        let r4 := r3.2.openRdwr outName
        if !r4.1.isOpen then (none, r4.2)
        else (some (r3.1, r4.1), r4.2)

/-- `GnssGrpcProxyServer::Commands` (launch.cc lines 228-282). -/
def GnssGrpcProxyServer.Commands (config : CuttlefishConfig)
    (inst : InstanceSpecific) (s : Sys) : SvcResult × Sys :=
  if !config.enable_gnss_grpc_proxy || !(s.fileExists GnssGrpcProxyBinary) then
    (.ok [], s)
  else
    let gnss_grpc_proxy_cmd := Command.create GnssGrpcProxyBinary
    match inOutPipes inst.gnss_in_pipe_name inst.gnss_out_pipe_name s with
    | (none, s) => (.ok [], s)
    | (some fds, s) =>
      let gnss_grpc_proxy_in_wr := fds.1
      let gnss_grpc_proxy_out_rd := fds.2
      let cmd := gnss_grpc_proxy_cmd.AddParameter
        [.str "--gnss_in_fd=", .fd gnss_grpc_proxy_in_wr.fd]
      let cmd := cmd.AddParameter
        [.str "--gnss_out_fd=", .fd gnss_grpc_proxy_out_rd.fd]
      let cmd := cmd.AddParameter
        [.str "--gnss_grpc_port=", .str (toString inst.gnss_grpc_proxy_server_port)]
      if inst.gnss_file_path ≠ "" then
        (.ok [cmd.AddParameter [.str "--gnss_file_path=", .str inst.gnss_file_path]], s)
      else (.ok [cmd], s)

/-- The unlink / mkfifo / open loop shared (textually duplicated in the
source) by `BluetoothConnector::Commands` and `SecureEnvironment::Commands`:
stops at the first creation or open failure. -/
def fifoLoop (mode : Nat) : List String → List SharedFD → Sys → Option (List SharedFD) × Sys
  | [], fifos, s => (some fifos, s)
  | path :: rest, fifos, s =>
    let r := (s.unlink path).mkfifo path mode
    if !r.1 then (none, r.2)
    else
      let r2 := r.2.openRdwr path
      if !r2.1.isOpen then (none, r2.2)
      else fifoLoop mode rest (fifos ++ [r2.1]) r2.2

/-- The two fifo paths of `BluetoothConnector::Commands`. -/
def BluetoothConnector.fifoPaths (inst : InstanceSpecific) : List String :=
  [inst.PerInstanceInternalPath "bt_fifo_vm.in",
   inst.PerInstanceInternalPath "bt_fifo_vm.out"]

/-- `BluetoothConnector::Commands` (launch.cc lines 295-325). -/
def BluetoothConnector.Commands (config : CuttlefishConfig)
    (inst : InstanceSpecific) (s : Sys) : SvcResult × Sys :=
  if !config.enable_host_bluetooth then (.ok [], s)
  else
    match fifoLoop 0o660 (BluetoothConnector.fifoPaths inst) [] s with
    | (none, s) => (.ok [], s)
    | (some fifos, s) =>
      let command := Command.create (DefaultHostArtifactsPath "bin/bt_connector")
      let command := command.AddParameter [.str "-bt_out=", .fd (fifos.getD 0 ⟨0, false⟩).fd]
      let command := command.AddParameter [.str "-bt_in=", .fd (fifos.getD 1 ⟨0, false⟩).fd]
      let command := command.AddParameter [.str "-hci_port=", .str (toString inst.rootcanal_hci_port)]
      let command := command.AddParameter [.str "-link_port=", .str (toString inst.rootcanal_link_port)]
      let command := command.AddParameter [.str "-test_port=", .str (toString inst.rootcanal_test_port)]
      (.ok [command], s)

/-- The four fifo paths of `SecureEnvironment::Commands`. -/
def SecureEnvironment.fifoPaths (inst : InstanceSpecific) : List String :=
  [inst.PerInstanceInternalPath "keymaster_fifo_vm.in",
   inst.PerInstanceInternalPath "keymaster_fifo_vm.out",
   inst.PerInstanceInternalPath "gatekeeper_fifo_vm.in",
   inst.PerInstanceInternalPath "gatekeeper_fifo_vm.out"]

/-- `SecureEnvironment::Commands` (launch.cc lines 338-374). -/
def SecureEnvironment.Commands (config : CuttlefishConfig)
    (inst : InstanceSpecific) (s : Sys) : SvcResult × Sys :=
  match fifoLoop 0o600 (SecureEnvironment.fifoPaths inst) [] s with
  | (none, s) => (.ok [], s)
  | (some fifos, s) =>
    let command := Command.create (HostBinaryPath "secure_env")
    let command := command.AddParameter [.str "-keymaster_fd_out=", .fd (fifos.getD 0 ⟨0, false⟩).fd]
    let command := command.AddParameter [.str "-keymaster_fd_in=", .fd (fifos.getD 1 ⟨0, false⟩).fd]
    let command := command.AddParameter [.str "-gatekeeper_fd_out=", .fd (fifos.getD 2 ⟨0, false⟩).fd]
    let command := command.AddParameter [.str "-gatekeeper_fd_in=", .fd (fifos.getD 3 ⟨0, false⟩).fd]
    let secure_keymint := config.secure_hals.keymint
    let command := command.AddParameter
      [.str "-keymint_impl=", .str (if secure_keymint then "tpm" else "software")]
    let secure_gatekeeper := config.secure_hals.gatekeeper
    let gatekeeper_impl := if secure_gatekeeper then "tpm" else "software"
    let command := command.AddParameter [.str "-gatekeeper_impl=", .str gatekeeper_impl]
    (.ok [command], s)

/-- `VehicleHalServer::Commands` (launch.cc lines 386-408). -/
def VehicleHalServer.Commands (config : CuttlefishConfig)
    (inst : InstanceSpecific) (s : Sys) : SvcResult × Sys :=
  if !config.enable_vehicle_hal_grpc_server ||
      !(s.fileExists config.vehicle_hal_grpc_server_binary) then
    (.ok [], s)
  else
    let grpc_server := Command.create config.vehicle_hal_grpc_server_binary
    let vhal_server_cid := 2
    let vhal_server_port := inst.vehicle_hal_server_port
    let vhal_server_power_state_file := AbsolutePath (inst.PerInstancePath "power_state")
    let vhal_server_power_state_socket := AbsolutePath (inst.PerInstancePath "power_state_socket")
    let grpc_server := grpc_server.AddParameter [.str "--server_cid=", .str (toString vhal_server_cid)]
    let grpc_server := grpc_server.AddParameter [.str "--server_port=", .str (toString vhal_server_port)]
    let grpc_server := grpc_server.AddParameter [.str "--power_state_file=", .str vhal_server_power_state_file]
    let grpc_server := grpc_server.AddParameter [.str "--power_state_socket=", .str vhal_server_power_state_socket]
    (.ok [grpc_server], s)

/-- `ConsoleForwarder::Commands` (launch.cc lines 421-466). -/
def ConsoleForwarder.Commands (config : CuttlefishConfig)
    (inst : InstanceSpecific) (s : Sys) : SvcResult × Sys :=
  if !config.console then (.ok [], s)
  else
    let console_forwarder_cmd := Command.create ConsoleForwarderBinary
    match inOutPipes inst.console_in_pipe_name inst.console_out_pipe_name s with
    | (none, s) => (.ok [], s)
    | (some fds, s) =>
      let console_forwarder_in_wr := fds.1
      let console_forwarder_out_rd := fds.2
      let cmd := console_forwarder_cmd.AddParameter
        [.str "--console_in_fd=", .fd console_forwarder_in_wr.fd]
      let cmd := cmd.AddParameter
        [.str "--console_out_fd=", .fd console_forwarder_out_rd.fd]
      (.ok [cmd], s)

/-- Return value of `LaunchKernelLogMonitor`: the commands plus the read ends
of the event-subscriber pipes handed back to the caller. -/
structure KernelLogMonitorData where
  commands : List Command
  pipes : List SharedFD
deriving DecidableEq, Repr

/-- The subscriber-pipe loop of `LaunchKernelLogMonitor` (launch.cc lines
66-77): `i` is the loop index, `rem` the remaining iterations. -/
def klmLoop (i rem : Nat) (command : Command) (pipes : List SharedFD)
    (s : Sys) : Except Nat (Command × List SharedFD) × Sys :=
  match rem with
  | 0 => (.ok (command, pipes), s)
  | rem + 1 =>
    let r := s.pipe
    if !r.1.1 then (.error RunnerExitCodes.kPipeIOError, r.2)
    else
      let event_pipe_read_end := r.1.2.1
      let event_pipe_write_end := r.1.2.2
      let command := if i > 0 then command.AppendToLastParameter (.str ",") else command
      let command := command.AppendToLastParameter (.fd event_pipe_write_end.fd)
      klmLoop (i + 1) rem command (pipes ++ [event_pipe_read_end]) r.2

/-- `LaunchKernelLogMonitor` (launch.cc lines 44-83); `.error code` models
`std::exit(code)`. -/
def LaunchKernelLogMonitor (inst : InstanceSpecific)
    (number_of_event_pipes : Nat) (s : Sys) : Except Nat KernelLogMonitorData × Sys :=
  let log_name := inst.kernel_log_pipe_name
  let r := s.mkfifo log_name 0o600
  if !r.1 then (.ok ⟨[], []⟩, r.2)
  else
    let r2 := r.2.openRdwr log_name
    let command := (Command.create KernelLogMonitorBinary).AddParameter
      [.str "-log_pipe_fd=", .fd r2.1.fd]
    if number_of_event_pipes > 0 then
      let command := command.AddParameter [.str "-subscriber_fds="]
      let r3 := klmLoop 0 number_of_event_pipes command [] r2.2
      match r3.1 with
      | .ok cp => (.ok ⟨[cp.1], cp.2⟩, r3.2)
      | .error code => (.error code, r3.2)
    else (.ok ⟨[command], []⟩, r2.2)

/-- The capability each registered service exposes. -/
def CommandSource := CuttlefishConfig → InstanceSpecific → Sys → SvcResult × Sys

/-- The registry: the fixed multibinding registration order of
`launchComponent` (launch.cc lines 475-487). -/
def launchComponent : List CommandSource :=
  [fun _ inst s => ConfigServer.Commands inst s,
   ConsoleForwarder.Commands,
   BluetoothConnector.Commands,
   GnssGrpcProxyServer.Commands,
   fun _ inst s => LogcatReceiver.Commands inst s,
   fun config _ s => MetricsService.Commands config s,
   RootCanal.Commands,
   SecureEnvironment.Commands,
   fun _ inst s => TombstoneReceiver.Commands inst s,
   VehicleHalServer.Commands]

/-- Modelled from the spec: the composition pass that iterates the registered
`CommandSource` multibindings in registration order and concatenates their
command lists lives in run_cvd's main, which is not among the provided
sources; an `exit` from any service terminates the whole pass. -/
def Compose (svcs : List CommandSource) (config : CuttlefishConfig)
    (inst : InstanceSpecific) (s : Sys) : SvcResult × Sys :=
  match svcs with
  | [] => (.ok [], s)
  | f :: rest =>
    match f config inst s with
    | (.ok cs, s) =>
      match Compose rest config inst s with
      | (.ok more, s) => (.ok (cs ++ more), s)
      | (.exit code, s) => (.exit code, s)
    | (.exit code, s) => (.exit code, s)

/-- Specification device: run every service in sequence (threading the OS
state) and collect each service's own result, without any composition. -/
def runAll (svcs : List CommandSource) (config : CuttlefishConfig)
    (inst : InstanceSpecific) (s : Sys) : List SvcResult × Sys :=
  match svcs with
  | [] => ([], s)
  | f :: rest =>
    let (r, s) := f config inst s
    let (rs, s) := runAll rest config inst s
    (r :: rs, s)

/-! Concrete fixtures used by witnesses. -/

/-- A configuration with every feature flag off. -/
def cfgOff : CuttlefishConfig :=
  { enable_host_bluetooth := false
    enable_metrics := .kNo
    enable_gnss_grpc_proxy := false
    enable_vehicle_hal_grpc_server := false
    vehicle_hal_grpc_server_binary := "bin/vhal_server"
    console := false
    secure_hals := ⟨false, false⟩ }

/-- A concrete per-instance configuration. -/
def inst0 : InstanceSpecific :=
  { kernel_log_pipe_name := "dir/kernel-log-pipe"
    logcat_pipe_name := "dir/logcat-pipe"
    config_server_port := 4680
    tombstone_receiver_port := 4681
    rootcanal_test_port := 7500
    rootcanal_hci_port := 7300
    rootcanal_link_port := 7400
    rootcanal_config_file := "etc/rootcanal/controller_properties.json"
    rootcanal_default_commands_file := "etc/rootcanal/default_commands"
    gnss_in_pipe_name := "dir/internal/gnsshvc_fifo_vm.in"
    gnss_out_pipe_name := "dir/internal/gnsshvc_fifo_vm.out"
    gnss_grpc_proxy_server_port := 7200
    gnss_file_path := ""
    vehicle_hal_server_port := 9300
    console_in_pipe_name := "dir/console_in_pipe"
    console_out_pipe_name := "dir/console_out_pipe"
    instanceDir := "dir"
    instanceInternalDir := "dir/internal" }

/-- Oracles under which every resource acquisition succeeds. -/
def oracleAllOk : Oracles :=
  { pathExists := fun _ => false
    fifoOk := fun _ => true
    openOk := fun _ => true
    bindOk := fun _ => true
    dirExists := fun _ => false
    mkdirOk := fun _ => true
    fileExists := fun _ => true
    pipeOk := fun _ => true
    pipeCalls := 0 }

def sys0 : Sys := { w := { oracles := oracleAllOk, nextFd := 3 }, events := [] }

/-- Concrete world for the C4 witness: creating the third secure-environment
pipe (the gatekeeper input fifo) fails, everything else succeeds. -/
def sysC4 : Sys :=
  { w := { oracles := { oracleAllOk with
             fifoOk := (fun p => !(p == "dir/internal/gatekeeper_fifo_vm.in")) }
           nextFd := 3 }
    events := [] }

/-- The filesystem path a resource event touches, if any (pipe pairs and
vsock listeners touch no path). -/
def Event.path : Event → Option String
  | .unlink p => some p
  | .mkfifo p _ _ => some p
  | .openFile p _ => some p
  | .mkdir p _ => some p
  | .pipe _ => none
  | .vsockServer _ _ => none

/-- The OS state after the fifo loop unlinks and successfully creates the
pipe at `p` (before opening it). -/
def fifoMkSys (mode : Nat) (p : String) (s : Sys) : Sys :=
  { w := { s.w with oracles := { s.w.oracles with
             pathExists := fun q => if q = p then true else s.w.oracles.pathExists q } }
    events := s.events ++ [.unlink p, .mkfifo p mode true] }

/-- The OS state after the fifo loop successfully unlinks, creates and opens
the pipe at `p`. -/
def fifoStepSys (mode : Nat) (p : String) (s : Sys) : Sys :=
  { w := { oracles := { s.w.oracles with
             pathExists := fun q => if q = p then true else s.w.oracles.pathExists q }
           nextFd := s.w.nextFd + 1 }
    events := s.events ++ [.unlink p, .mkfifo p mode true, .openFile p true] }

/-- The OS state after the fifo loop unlinks `p` and `mkfifo` fails. -/
def fifoCreateFailSys (mode : Nat) (p : String) (s : Sys) : Sys :=
  { w := { s.w with oracles := { s.w.oracles with
             pathExists := fun q => if q = p then false else s.w.oracles.pathExists q } }
    events := s.events ++ [.unlink p, .mkfifo p mode false] }

/-- The OS state after the fifo loop creates the pipe at `p` but fails to
open it. -/
def fifoOpenFailSys (mode : Nat) (p : String) (s : Sys) : Sys :=
  { w := { s.w with oracles := { s.w.oracles with
             pathExists := fun q => if q = p then true else s.w.oracles.pathExists q } }
    events := s.events ++ [.unlink p, .mkfifo p mode true, .openFile p false] }

/-- The OS state after a plain (no preceding unlink) successful `mkfifo`. -/
def mkfifoOkSys (p : String) (mode : Nat) (s : Sys) : Sys :=
  { w := { s.w with oracles := { s.w.oracles with
             pathExists := fun q => if q = p then true else s.w.oracles.pathExists q } }
    events := s.events ++ [.mkfifo p mode true] }

/-- The OS state after a successful `openRdwr`. -/
def openOkSys (p : String) (s : Sys) : Sys :=
  { w := { s.w with nextFd := s.w.nextFd + 1 }
    events := s.events ++ [.openFile p true] }

/-- The OS state after a successful anonymous pipe creation. -/
def pipeOkSys (s : Sys) : Sys :=
  { w := { oracles := { s.w.oracles with pipeCalls := s.w.oracles.pipeCalls + 1 }
           nextFd := s.w.nextFd + 2 }
    events := s.events ++ [.pipe true] }

/-- The OS state after `r` consecutive successful pipe creations. -/
def klmEndSys : Nat → Sys → Sys
  | 0, s => s
  | r + 1, s => klmEndSys r (pipeOkSys s)

/-- The write-end descriptor values of `rem` pipe pairs allocated starting at
`fd0` (each pair takes the read end first). -/
def klmWriteEnds (rem fd0 : Nat) : List Nat :=
  match rem with
  | 0 => []
  | r + 1 => (fd0 + 1) :: klmWriteEnds r (fd0 + 2)

/-- The read-end descriptors of `rem` pipe pairs allocated starting at `fd0`,
in creation order. -/
def klmReadEnds (rem fd0 : Nat) : List SharedFD :=
  match rem with
  | 0 => []
  | r + 1 => ⟨fd0, true⟩ :: klmReadEnds r (fd0 + 2)

/-- The argument pieces the kernel-log-monitor loop appends to the subscriber
parameter, starting at loop index `i` with next descriptor `fd0`. -/
def klmPieces (i rem fd0 : Nat) : List ArgPiece :=
  match rem with
  | 0 => []
  | r + 1 => (if i > 0 then [ArgPiece.str ","] else []) ++
      (ArgPiece.fd (fd0 + 1) :: klmPieces (i + 1) r (fd0 + 2))

/-- Fold `AppendToLastParameter` over a list of pieces. -/
def appendPieces (c : Command) (pieces : List ArgPiece) : Command :=
  pieces.foldl Command.AppendToLastParameter c

/-- Descriptor references joined by comma separator pieces. -/
def commaJoin (fds : List Nat) : List ArgPiece :=
  List.intersperse (ArgPiece.str ",") (fds.map ArgPiece.fd)

/-- The trace the fifo loop leaves when every path is created and opened
successfully: per path in order, an unlink, then the mkfifo, then the open. -/
def fifoLoopEvents (mode : Nat) (paths : List String) : List Event :=
  (paths.map fun p => [Event.unlink p, .mkfifo p mode true, .openFile p true]).flatten

/-- Whether an event is an unlink. -/
def isUnlinkEv : Event → Bool
  | .unlink _ => true
  | _ => false

/-- A world in which every filesystem path already exists (stale artifacts of
a previous instance run) but every creation/open/bind attempt would succeed. -/
def sysStale : Sys :=
  { w := { oracles := { oracleAllOk with pathExists := (fun _ => true) }, nextFd := 3 }
    events := [] }

/-- `cfgOff` with host bluetooth enabled. -/
def cfgBt : CuttlefishConfig := { cfgOff with enable_host_bluetooth := true }

/-- `cfgOff` with every pipe-creating optional service enabled: host
bluetooth, the GNSS proxy and the console forwarder. -/
def cfgStale : CuttlefishConfig :=
  { cfgOff with
    enable_host_bluetooth := true
    enable_gnss_grpc_proxy := true
    console := true }

/-- A command-argument piece with the concrete descriptor number erased: what
remains is the flag/value text and the positions of descriptor references. -/
inductive ShapePiece where
  | str (s : String)
  | fdRef
deriving DecidableEq, Repr

def ArgPiece.shape : ArgPiece → ShapePiece
  | .str s => .str s
  | .fd _ => .fdRef

/-- A command with descriptor numbers erased: binary path plus argument
names, values and order. -/
structure CmdShape where
  executable : String
  args : List (List ShapePiece)
deriving DecidableEq, Repr

def Command.shape (c : Command) : CmdShape :=
  ⟨c.executable, c.args.map (List.map ArgPiece.shape)⟩

/-- A service result with descriptor numbers erased. -/
inductive ResShape where
  | ok (cmds : List CmdShape)
  | exit (code : Nat)
deriving DecidableEq, Repr

def SvcResult.shape : SvcResult → ResShape
  | .ok cs => .ok (cs.map Command.shape)
  | .exit c => .exit c

/-- A service is deterministic up to descriptor numbering: on any two OS
states whose oracles agree (the descriptor counter and past trace may
differ), it yields the same result shape and leaves the oracles equal. -/
def ServiceDet (f : CommandSource) : Prop :=
  ∀ (config : CuttlefishConfig) (inst : InstanceSpecific) (s₁ s₂ : Sys),
    s₁.w.oracles = s₂.w.oracles →
    (f config inst s₁).1.shape = (f config inst s₂).1.shape ∧
    (f config inst s₁).2.w.oracles = (f config inst s₂).2.w.oracles

/-- `sys0` with a different starting descriptor number. -/
def sys0b : Sys := { w := { oracles := oracleAllOk, nextFd := 100 }, events := [] }

/-! The bt_connector bridge (host/commands/bt_connector/main.cpp): two
forwarding loops in separate threads share one reconnecting socket handle;
`openSocket` serializes reconnection behind a function-static mutex. The
embedding is a small-step interleaved machine over explicit program
counters. -/

/-- The two forwarding threads of bt_connector's main. -/
inductive BtThread where
  | guest
  | host
deriving DecidableEq, Repr

/-- Program counter of the guest_to_host loop (main.cpp lines 64-72):
about to `bt_in->Read`; holding the i-th chunk about to `WriteAll` to the
socket; after a failed write, about to enter `openSocket` (acquire its
mutex); inside `SocketLocalClient` holding the mutex. -/
inductive GuestPc where
  | read
  | write (i : Nat)
  | reconnect
  | opening
deriving DecidableEq, Repr

/-- Program counter of the host_to_guest loop (main.cpp lines 74-84):
about to `sock->Read`; holding the i-th chunk about to `WriteAll` to bt_out;
after a failed read, about to enter `openSocket`; inside
`SocketLocalClient` holding the mutex. -/
inductive HostPc where
  | read
  | write (i : Nat)
  | reconnect
  | opening
deriving DecidableEq, Repr

/-- Observable events of a bridge run. Chunks are named by read index: the
guest loop's i-th `bt_in->Read` yields chunk i, `gWrite i ok` is the
`WriteAll` of that chunk to the socket, and `gOpen gen` is a completed
`openSocket` call installing socket generation `gen`. Host events mirror
this for the opposite direction. -/
inductive BtEvent where
  | gRead (i : Nat)
  | gWrite (i : Nat) (ok : Bool)
  | gOpen (gen : Nat)
  | hRead (i : Nat) (ok : Bool)
  | hWrite (i : Nat)
  | hOpen (gen : Nat)
deriving DecidableEq, Repr

/-- Whether an event belongs to the guest_to_host loop. -/
def isGuestEv : BtEvent → Bool
  | .gRead _ => true
  | .gWrite _ _ => true
  | .gOpen _ => true
  | _ => false

/-- Environment oracle: whether `WriteAll` of the guest's i-th chunk on
socket generation `gen` succeeds, and whether the host's i-th socket read
returns data (`false` models a -1 read). -/
structure BtOracle where
  writeOk : Nat → Nat → Bool
  sockRead : Nat → Nat → Bool

/-- The shared state of the bridge process: both program counters, the
current socket generation, the holder of openSocket's mutex, the per-loop
read counts, the number of completed openSocket calls, and the event
trace. -/
structure BtState where
  g : GuestPc
  h : HostPc
  sock : Nat
  lock : Option BtThread
  gReads : Nat
  hReads : Nat
  opens : Nat
  events : List BtEvent

/-- Initial state: main has dup'ed bt_in/bt_out and opened socket
generation 0; both loops are about to read. -/
def btInit : BtState :=
  { g := .read, h := .read, sock := 0, lock := none,
    gReads := 0, hReads := 0, opens := 0, events := [] }

/-- One step of the guest_to_host loop; `none` when the thread is blocked on
openSocket's mutex. -/
def guestStep (o : BtOracle) (st : BtState) : Option BtState :=
  match st.g with
  | .read =>
    some { st with g := .write st.gReads, gReads := st.gReads + 1,
                   events := st.events ++ [.gRead st.gReads] }
  | .write i =>
    if o.writeOk st.sock i then
      some { st with g := .read, events := st.events ++ [.gWrite i true] }
    else
      some { st with g := .reconnect, events := st.events ++ [.gWrite i false] }
  | .reconnect =>
    match st.lock with
    | none => some { st with g := .opening, lock := some .guest }
    | some _ => none
  | .opening =>
    some { st with g := .read, lock := none, sock := st.opens + 1,
                   opens := st.opens + 1,
                   events := st.events ++ [.gOpen (st.opens + 1)] }

/-- One step of the host_to_guest loop; `none` when the thread is blocked on
openSocket's mutex. -/
def hostStep (o : BtOracle) (st : BtState) : Option BtState :=
  match st.h with
  | .read =>
    if o.sockRead st.sock st.hReads then
      some { st with h := .write st.hReads, hReads := st.hReads + 1,
                     events := st.events ++ [.hRead st.hReads true] }
    else
      some { st with h := .reconnect, hReads := st.hReads + 1,
                     events := st.events ++ [.hRead st.hReads false] }
  | .write i =>
    some { st with h := .read, events := st.events ++ [.hWrite i] }
  | .reconnect =>
    match st.lock with
    | none => some { st with h := .opening, lock := some .host }
    | some _ => none
  | .opening =>
    some { st with h := .read, lock := none, sock := st.opens + 1,
                   opens := st.opens + 1,
                   events := st.events ++ [.hOpen (st.opens + 1)] }

/-- A scheduled step: the chosen thread steps if enabled, otherwise the
state is unchanged (the thread stays blocked on the mutex). -/
def btStep (o : BtOracle) (t : BtThread) (st : BtState) : BtState :=
  match t with
  | .guest => (guestStep o st).getD st
  | .host => (hostStep o st).getD st

/-- Run `n` steps under the interleaving `sched`. -/
def btRun (o : BtOracle) (sched : Nat → BtThread) : Nat → BtState
  | 0 => btInit
  | n + 1 => btStep o (sched n) (btRun o sched n)

/-- A state reachable under some interleaving. -/
def BtReachable (o : BtOracle) (st : BtState) : Prop :=
  ∃ sched n, btRun o sched n = st

/-- Legal guest-event traces: the projection of a run onto the guest loop's
events, together with the loop's program counter and read count. -/
inductive GTrace : GuestPc → Nat → List BtEvent → Prop where
  | start : GTrace .read 0 []
  | read {r : Nat} {t : List BtEvent} :
      GTrace .read r t → GTrace (.write r) (r + 1) (t ++ [.gRead r])
  | wok {i r : Nat} {t : List BtEvent} :
      GTrace (.write i) r t → GTrace .read r (t ++ [.gWrite i true])
  | wfail {i r : Nat} {t : List BtEvent} :
      GTrace (.write i) r t → GTrace .reconnect r (t ++ [.gWrite i false])
  | toOpen {r : Nat} {t : List BtEvent} :
      GTrace .reconnect r t → GTrace .opening r t
  | opened {gen r : Nat} {t : List BtEvent} :
      GTrace .opening r t → GTrace .read r (t ++ [.gOpen gen])

/-- What may follow a failed guest write within the guest-event projection:
nothing yet (the loop is reconnecting), exactly one completed reconnect, or
a completed reconnect followed by the next read. -/
def failTail : List BtEvent → GuestPc → Prop
  | [], pc => pc = .reconnect ∨ pc = .opening
  | [BtEvent.gOpen _], pc => pc = .read
  | BtEvent.gOpen _ :: BtEvent.gRead _ :: _, _ => True
  | _, _ => False

/-- Indices of the guest loop's write attempts, in trace order. -/
def gWriteIdxs (evs : List BtEvent) : List Nat :=
  evs.filterMap fun e => match e with | .gWrite i _ => some i | _ => none

/-- Indices of the guest loop's completed reads, in trace order. -/
def gReadIdxs (evs : List BtEvent) : List Nat :=
  evs.filterMap fun e => match e with | .gRead i => some i | _ => none

/-- Whether the guest loop holds a read-but-not-yet-written chunk. -/
def pendingW : GuestPc → Nat
  | .write _ => 1
  | _ => 0

/-- The machine invariant: openSocket's mutex really guards the `opening`
states, the guest-event projection is a legal guest trace, and the read and
write indices are initial segments of the naturals. -/
def BtInv (st : BtState) : Prop :=
  (st.g = .opening → st.lock = some .guest) ∧
  (st.h = .opening → st.lock = some .host) ∧
  GTrace st.g st.gReads (st.events.filter isGuestEv) ∧
  gReadIdxs st.events = List.range st.gReads ∧
  gWriteIdxs st.events = List.range (st.gReads - pendingW st.g) ∧
  (∀ i, st.g = .write i → i + 1 = st.gReads)

/-- Oracle under which every guest write fails and every host read yields
data. -/
def oFail : BtOracle := { writeOk := fun _ _ => false, sockRead := fun _ _ => true }

/-- Schedule that always runs the guest thread. -/
def schedG : Nat → BtThread := fun _ => .guest

/-! Claim theorems. -/

/-- Claim C1: for every flag-guarded service definition (bluetooth controller,
bluetooth bridge, metrics, GNSS proxy, vehicle-HAL server, console forwarder),
if the configuration's flag is false, or the required binary artifact is
absent, `Commands` returns the empty sequence and leaves the OS state — world
and event trace — entirely unchanged (no pipe, socket, or directory is
created). -/
theorem disabled_services_produce_nothing (config : CuttlefishConfig)
    (inst : InstanceSpecific) (s : Sys) :
    (config.enable_host_bluetooth = false →
      RootCanal.Commands config inst s = (.ok [], s) ∧
      BluetoothConnector.Commands config inst s = (.ok [], s)) ∧
    (config.enable_metrics ≠ MetricsAnswer.kYes →
      MetricsService.Commands config s = (.ok [], s)) ∧
    ((config.enable_gnss_grpc_proxy = false ∨ s.fileExists GnssGrpcProxyBinary = false) →
      GnssGrpcProxyServer.Commands config inst s = (.ok [], s)) ∧
    ((config.enable_vehicle_hal_grpc_server = false ∨
        s.fileExists config.vehicle_hal_grpc_server_binary = false) →
      VehicleHalServer.Commands config inst s = (.ok [], s)) ∧
    (config.console = false →
      ConsoleForwarder.Commands config inst s = (.ok [], s)) := by
  refine ⟨fun h => ⟨?_, ?_⟩, fun h => ?_, fun h => ?_, fun h => ?_, fun h => ?_⟩
  · simp [RootCanal.Commands, h]
  · simp [BluetoothConnector.Commands, h]
  · simp [MetricsService.Commands, h]
  · rcases h with h | h <;> simp [GnssGrpcProxyServer.Commands, h]
  · rcases h with h | h <;> simp [VehicleHalServer.Commands, h]
  · simp [ConsoleForwarder.Commands, h]

/-- Witness for C1 at a concrete all-flags-off configuration. -/
theorem disabled_services_produce_nothing_witness :
    RootCanal.Commands cfgOff inst0 sys0 = (.ok [], sys0) ∧
    BluetoothConnector.Commands cfgOff inst0 sys0 = (.ok [], sys0) ∧
    MetricsService.Commands cfgOff sys0 = (.ok [], sys0) ∧
    GnssGrpcProxyServer.Commands cfgOff inst0 sys0 = (.ok [], sys0) ∧
    VehicleHalServer.Commands cfgOff inst0 sys0 = (.ok [], sys0) ∧
    ConsoleForwarder.Commands cfgOff inst0 sys0 = (.ok [], sys0) := by
  have h := disabled_services_produce_nothing cfgOff inst0 sys0
  exact ⟨(h.1 rfl).1, (h.1 rfl).2, h.2.1 (by decide),
    h.2.2.1 (Or.inl rfl), h.2.2.2.1 (Or.inl rfl), h.2.2.2.2 rfl⟩

/-- Claim C3: each designated-critical provisioning failure terminates the
whole orchestration process (modelled as an `exit` result rather than an
empty command sequence) with its own exit code: config-server bind failure,
tombstone-server bind failure, tombstone-directory creation failure, and
kernel-log-monitor event-pipe creation failure, and the four codes are
pairwise distinct. -/
theorem critical_failures_exit_with_distinct_codes :
    (∀ (inst : InstanceSpecific) (s : Sys),
      s.w.oracles.bindOk inst.config_server_port = false →
      (ConfigServer.Commands inst s).1 =
        .exit RunnerExitCodes.kConfigServerError) ∧
    (∀ (inst : InstanceSpecific) (s : Sys),
      s.w.oracles.dirExists (inst.PerInstancePath "tombstones") = true →
      s.w.oracles.bindOk inst.tombstone_receiver_port = false →
      (TombstoneReceiver.Commands inst s).1 =
        .exit RunnerExitCodes.kTombstoneServerError) ∧
    (∀ (inst : InstanceSpecific) (s : Sys),
      s.w.oracles.dirExists (inst.PerInstancePath "tombstones") = false →
      s.w.oracles.mkdirOk (inst.PerInstancePath "tombstones") = false →
      (TombstoneReceiver.Commands inst s).1 =
        .exit RunnerExitCodes.kTombstoneDirCreationError) ∧
    (∀ (inst : InstanceSpecific) (n : Nat) (s : Sys),
      0 < n →
      s.w.oracles.pathExists inst.kernel_log_pipe_name = false →
      s.w.oracles.fifoOk inst.kernel_log_pipe_name = true →
      s.w.oracles.pipeOk s.w.oracles.pipeCalls = false →
      (LaunchKernelLogMonitor inst n s).1 =
        .error RunnerExitCodes.kPipeIOError) ∧
    [RunnerExitCodes.kPipeIOError, RunnerExitCodes.kConfigServerError,
     RunnerExitCodes.kTombstoneServerError,
     RunnerExitCodes.kTombstoneDirCreationError].Nodup := by
  refine ⟨fun inst s h => ?_, fun inst s hd h => ?_, fun inst s hd h => ?_,
    fun inst n s hn h1 h2 h3 => ?_, by decide⟩
  · simp [ConfigServer.Commands, Sys.vsockServer, h]
  · simp [TombstoneReceiver.Commands, TombstoneReceiver.bindAndCommand,
      Sys.directoryExists, Sys.vsockServer, hd, h]
  · simp [TombstoneReceiver.Commands, Sys.directoryExists, Sys.mkdir, hd, h]
  · obtain ⟨m, rfl⟩ : ∃ m, n = m + 1 := ⟨n - 1, by omega⟩
    simp only [LaunchKernelLogMonitor, Sys.mkfifo, h1, h2]
    by_cases ho : s.w.oracles.openOk inst.kernel_log_pipe_name <;>
      simp [Sys.openRdwr, ho, klmLoop, Sys.pipe, h3]

/-- Witness for C3 at concrete failing worlds. -/
theorem critical_failures_exit_witness :
    (ConfigServer.Commands inst0
        { w := { oracles := { oracleAllOk with bindOk := (fun _ => false) }, nextFd := 3 },
          events := [] }).1 = .exit RunnerExitCodes.kConfigServerError ∧
    (TombstoneReceiver.Commands inst0
        { w := { oracles := { oracleAllOk with
                                dirExists := (fun _ => true)
                                bindOk := (fun _ => false) },
                 nextFd := 3 },
          events := [] }).1 = .exit RunnerExitCodes.kTombstoneServerError ∧
    (TombstoneReceiver.Commands inst0
        { w := { oracles := { oracleAllOk with mkdirOk := (fun _ => false) }, nextFd := 3 },
          events := [] }).1 = .exit RunnerExitCodes.kTombstoneDirCreationError ∧
    (LaunchKernelLogMonitor inst0 2
        { w := { oracles := { oracleAllOk with pipeOk := (fun _ => false) }, nextFd := 3 },
          events := [] }).1 = .error RunnerExitCodes.kPipeIOError := by
  have h := critical_failures_exit_with_distinct_codes
  exact ⟨h.1 inst0 _ rfl, h.2.1 inst0 _ rfl rfl, h.2.2.1 inst0 _ rfl rfl,
    h.2.2.2.1 inst0 2 _ (by decide) rfl rfl rfl⟩

/-- Because the loop unlinks first, `mkfifo` succeeds exactly when the
creation oracle allows it, regardless of a pre-existing path. -/
theorem mkfifo_after_unlink_fst (s : Sys) (p : String) (mode : Nat) :
    ((s.unlink p).mkfifo p mode).1 = s.w.oracles.fifoOk p := by
  simp [Sys.unlink, Sys.mkfifo]

theorem mkfifo_after_unlink_snd_ok (s : Sys) (p : String) (mode : Nat)
    (hf : s.w.oracles.fifoOk p = true) :
    ((s.unlink p).mkfifo p mode).2 = fifoMkSys mode p s := by
  simp only [Sys.unlink, Sys.mkfifo, fifoMkSys]
  refine Sys.ext (World.ext ?_ rfl) (by simp [hf])
  refine Oracles.ext ?_ rfl rfl rfl rfl rfl rfl rfl rfl
  funext q
  by_cases hq : q = p <;> simp [hq, hf]

theorem mkfifo_after_unlink_snd_fail (s : Sys) (p : String) (mode : Nat)
    (hf : s.w.oracles.fifoOk p = false) :
    ((s.unlink p).mkfifo p mode).2 = fifoCreateFailSys mode p s := by
  simp only [Sys.unlink, Sys.mkfifo, fifoCreateFailSys]
  refine Sys.ext (World.ext ?_ rfl) (by simp [hf])
  refine Oracles.ext ?_ rfl rfl rfl rfl rfl rfl rfl rfl
  funext q
  by_cases hq : q = p <;> simp [hq, hf]

theorem openRdwr_mkSys_ok (s : Sys) (p : String) (mode : Nat)
    (ho : s.w.oracles.openOk p = true) :
    (fifoMkSys mode p s).openRdwr p =
      (⟨s.w.nextFd, true⟩, fifoStepSys mode p s) := by
  simp only [fifoMkSys, Sys.openRdwr, fifoStepSys, ho]
  simp

theorem openRdwr_mkSys_fail (s : Sys) (p : String) (mode : Nat)
    (ho : s.w.oracles.openOk p = false) :
    (fifoMkSys mode p s).openRdwr p =
      (⟨0, false⟩, fifoOpenFailSys mode p s) := by
  simp only [fifoMkSys, Sys.openRdwr, fifoOpenFailSys, ho]
  simp

/-- One unfolding step of the fifo loop. -/
theorem fifoLoop_cons (mode : Nat) (p : String) (rest : List String)
    (acc : List SharedFD) (s : Sys) :
    fifoLoop mode (p :: rest) acc s =
      if s.w.oracles.fifoOk p then
        if s.w.oracles.openOk p then
          fifoLoop mode rest (acc ++ [⟨s.w.nextFd, true⟩]) (fifoStepSys mode p s)
        else (none, fifoOpenFailSys mode p s)
      else (none, fifoCreateFailSys mode p s) := by
  by_cases hf : s.w.oracles.fifoOk p
  · by_cases ho : s.w.oracles.openOk p
    · rw [if_pos hf, if_pos ho]
      simp only [fifoLoop, mkfifo_after_unlink_fst, hf, Bool.not_true,
        mkfifo_after_unlink_snd_ok s p mode hf, openRdwr_mkSys_ok s p mode ho]
      simp
    · simp only [Bool.not_eq_true] at ho
      rw [if_pos hf, if_neg (by simp [ho])]
      simp only [fifoLoop, mkfifo_after_unlink_fst, hf, Bool.not_true,
        mkfifo_after_unlink_snd_ok s p mode hf, openRdwr_mkSys_fail s p mode ho]
      simp
  · simp only [Bool.not_eq_true] at hf
    rw [if_neg (by simp [hf])]
    simp only [fifoLoop, mkfifo_after_unlink_fst, hf, Bool.not_false, if_true,
      mkfifo_after_unlink_snd_fail s p mode hf]

/-- If the k-th path of the fifo loop fails to be created or opened while all
earlier paths succeed, the loop reports failure and every event it records
touches one of the first k+1 paths only. -/
theorem fifoLoop_fail (mode : Nat) (paths : List String) (acc : List SharedFD)
    (s : Sys) (k : Nat) (hk : k < paths.length)
    (hpre : ∀ i, i < k → s.w.oracles.fifoOk (paths.getD i "") = true ∧
      s.w.oracles.openOk (paths.getD i "") = true)
    (hfail : s.w.oracles.fifoOk (paths.getD k "") = false ∨
      s.w.oracles.openOk (paths.getD k "") = false) :
    (fifoLoop mode paths acc s).1 = none ∧
    ∃ tail, (fifoLoop mode paths acc s).2.events = s.events ++ tail ∧
      ∀ e ∈ tail, ∃ p ∈ paths.take (k + 1), Event.path e = some p := by
  induction paths generalizing acc s k with
  | nil => simp at hk
  | cons p rest ih =>
    rw [fifoLoop_cons]
    cases k with
    | zero =>
      simp only [List.getD_cons_zero] at hfail
      by_cases hf : s.w.oracles.fifoOk p
      · rcases hfail with hfail | ho
        · rw [hf] at hfail; cases hfail
        · rw [if_pos hf, if_neg (by simp [ho])]
          refine ⟨rfl, [Event.unlink p, .mkfifo p mode true, .openFile p false],
            by simp [fifoOpenFailSys], ?_⟩
          intro e he
          refine ⟨p, by simp, ?_⟩
          simp only [List.mem_cons, List.not_mem_nil, or_false] at he
          rcases he with rfl | rfl | rfl <;> rfl
      · simp only [Bool.not_eq_true] at hf
        rw [if_neg (by simp [hf])]
        refine ⟨rfl, [Event.unlink p, .mkfifo p mode false],
          by simp [fifoCreateFailSys], ?_⟩
        intro e he
        refine ⟨p, by simp, ?_⟩
        simp only [List.mem_cons, List.not_mem_nil, or_false] at he
        rcases he with rfl | rfl <;> rfl
    | succ j =>
      have h0 := hpre 0 (Nat.succ_pos j)
      simp only [List.getD_cons_zero] at h0
      simp only [List.getD_cons_succ] at hfail
      simp only [List.length_cons, Nat.succ_lt_succ_iff] at hk
      rw [if_pos h0.1, if_pos h0.2]
      obtain ⟨h1, tail, h2, h3⟩ := ih (acc ++ [⟨s.w.nextFd, true⟩])
        (fifoStepSys mode p s) j hk
        (fun i hi => hpre (i + 1) (Nat.succ_lt_succ hi))
        hfail
      refine ⟨h1, [Event.unlink p, .mkfifo p mode true, .openFile p true] ++ tail, ?_, ?_⟩
      · rw [h2]; simp [fifoStepSys]
      · intro e he
        rcases List.mem_append.mp he with he | he
        · refine ⟨p, by simp, ?_⟩
          simp only [List.mem_cons, List.not_mem_nil, or_false] at he
          rcases he with rfl | rfl | rfl <;> rfl
        · obtain ⟨q, hq, hqe⟩ := h3 e he
          refine ⟨q, ?_, hqe⟩
          rw [List.take_succ_cons]
          exact List.mem_cons_of_mem p hq

/-- Claim C4: for the secure-environment service and its four named pipes, if
creation (or opening) of the k-th pipe fails while the earlier pipes succeed,
zero Commands are produced and every resource operation performed touches only
the first k+1 pipe paths: no creation attempt occurs for any pipe after the
k-th and no partially-wired Command is emitted. -/
theorem secure_env_fail_fast (config : CuttlefishConfig) (inst : InstanceSpecific)
    (s : Sys) (k : Nat) (hk : k < 4)
    (hpre : ∀ i, i < k →
      s.w.oracles.fifoOk ((SecureEnvironment.fifoPaths inst).getD i "") = true ∧
      s.w.oracles.openOk ((SecureEnvironment.fifoPaths inst).getD i "") = true)
    (hfail : s.w.oracles.fifoOk ((SecureEnvironment.fifoPaths inst).getD k "") = false ∨
      s.w.oracles.openOk ((SecureEnvironment.fifoPaths inst).getD k "") = false) :
    (SecureEnvironment.Commands config inst s).1 = .ok [] ∧
    ∀ e ∈ (SecureEnvironment.Commands config inst s).2.events.drop s.events.length,
      ∃ p ∈ (SecureEnvironment.fifoPaths inst).take (k + 1), Event.path e = some p := by
  have hlen : k < (SecureEnvironment.fifoPaths inst).length := by
    simpa [SecureEnvironment.fifoPaths] using hk
  obtain ⟨h1, tail, h2, h3⟩ :=
    fifoLoop_fail 0o600 (SecureEnvironment.fifoPaths inst) [] s k hlen hpre hfail
  rcases hEq : fifoLoop 0o600 (SecureEnvironment.fifoPaths inst) [] s with ⟨res, s'⟩
  rw [hEq] at h1 h2
  unfold SecureEnvironment.Commands
  rw [hEq]
  cases res with
  | some v => exact absurd h1 (by simp)
  | none =>
    refine ⟨rfl, ?_⟩
    intro e he
    have h2' : s'.events = s.events ++ tail := h2
    have he' : e ∈ s'.events.drop s.events.length := he
    rw [h2', List.drop_left] at he'
    exact h3 e he'

/-- Witness for C4: failure on the third of the four pipes. -/
theorem secure_env_fail_fast_witness :
    (SecureEnvironment.Commands cfgOff inst0 sysC4).1 = .ok [] ∧
    ∀ e ∈ (SecureEnvironment.Commands cfgOff inst0 sysC4).2.events.drop
        sysC4.events.length,
      ∃ p ∈ (SecureEnvironment.fifoPaths inst0).take (2 + 1), Event.path e = some p :=
  secure_env_fail_fast cfgOff inst0 sysC4 2 (by omega)
    (by intro i hi; interval_cases i <;> exact ⟨by decide, rfl⟩)
    (Or.inl (by decide))

theorem mkfifo_fst (s : Sys) (p : String) (mode : Nat) :
    (s.mkfifo p mode).1 = (!s.w.oracles.pathExists p && s.w.oracles.fifoOk p) := rfl

theorem mkfifo_snd_ok (s : Sys) (p : String) (mode : Nat)
    (hpe : s.w.oracles.pathExists p = false) (hf : s.w.oracles.fifoOk p = true) :
    (s.mkfifo p mode).2 = mkfifoOkSys p mode s := by
  simp only [Sys.mkfifo, mkfifoOkSys]
  refine Sys.ext (World.ext ?_ rfl) (by simp [hpe, hf])
  refine Oracles.ext ?_ rfl rfl rfl rfl rfl rfl rfl rfl
  funext q
  by_cases hq : q = p <;> simp [hq, hpe, hf]

theorem openRdwr_ok (s : Sys) (p : String) (ho : s.w.oracles.openOk p = true) :
    s.openRdwr p = (⟨s.w.nextFd, true⟩, openOkSys p s) := by
  simp [Sys.openRdwr, openOkSys, ho]

theorem pipe_ok (s : Sys) (h : s.w.oracles.pipeOk s.w.oracles.pipeCalls = true) :
    s.pipe = ((true, ⟨s.w.nextFd, true⟩, ⟨s.w.nextFd + 1, true⟩), pipeOkSys s) := by
  simp [Sys.pipe, pipeOkSys, h]

theorem appendPieces_cons (c : Command) (p : ArgPiece) (ps : List ArgPiece) :
    appendPieces c (p :: ps) = appendPieces (c.AppendToLastParameter p) ps := rfl

theorem appendPieces_args (e : String) (front : List (List ArgPiece))
    (lastp pieces : List ArgPiece) :
    appendPieces ⟨e, front ++ [lastp]⟩ pieces = ⟨e, front ++ [lastp ++ pieces]⟩ := by
  induction pieces generalizing lastp with
  | nil => simp [appendPieces]
  | cons p ps ih =>
    rw [appendPieces_cons]
    have h1 : (⟨e, front ++ [lastp]⟩ : Command).AppendToLastParameter p =
        ⟨e, front ++ [lastp ++ [p]]⟩ := by
      simp [Command.AppendToLastParameter]
    rw [h1, ih]
    simp

theorem intersperse_cons_join (sep x : ArgPiece) (xs : List ArgPiece) :
    List.intersperse sep (x :: xs) = x :: (xs.map fun y => [sep, y]).flatten := by
  induction xs generalizing x with
  | nil => rfl
  | cons y ys ih =>
    rw [show List.intersperse sep (x :: y :: ys) =
      x :: sep :: List.intersperse sep (y :: ys) from rfl, ih]
    simp

theorem klmPieces_pos (r : Nat) : ∀ i fd0 : Nat, 0 < i →
    klmPieces i r fd0 =
      ((klmWriteEnds r fd0).map fun f => [ArgPiece.str ",", ArgPiece.fd f]).flatten := by
  induction r with
  | zero => intro i fd0 hi; rfl
  | succ r ih =>
    intro i fd0 hi
    simp only [klmPieces, klmWriteEnds, if_pos hi, List.map_cons, List.flatten]
    rw [ih (i + 1) (fd0 + 2) (by omega)]
    simp

theorem klmPieces_zero (r fd0 : Nat) :
    klmPieces 0 r fd0 = commaJoin (klmWriteEnds r fd0) := by
  cases r with
  | zero => rfl
  | succ r =>
    simp only [klmPieces, klmWriteEnds, commaJoin, List.map_cons]
    rw [intersperse_cons_join, klmPieces_pos r 1 (fd0 + 2) (by omega)]
    simp only [List.map_map]
    congr 1

theorem klmWriteEnds_length (r : Nat) : ∀ fd0, (klmWriteEnds r fd0).length = r := by
  induction r with
  | zero => intro fd0; rfl
  | succ r ih => intro fd0; simp [klmWriteEnds, ih]

theorem klmReadEnds_length (r : Nat) : ∀ fd0, (klmReadEnds r fd0).length = r := by
  induction r with
  | zero => intro fd0; rfl
  | succ r ih => intro fd0; simp [klmReadEnds, ih]

theorem klmEndSys_events (r : Nat) : ∀ s : Sys,
    (klmEndSys r s).events = s.events ++ List.replicate r (Event.pipe true) := by
  induction r with
  | zero => intro s; simp [klmEndSys]
  | succ r ih =>
    intro s
    rw [show klmEndSys (r + 1) s = klmEndSys r (pipeOkSys s) from rfl, ih]
    simp [pipeOkSys, List.replicate_succ]

/-- When every pipe creation succeeds, the kernel-log-monitor subscriber loop
appends one write-end reference per iteration (comma-separated after the
first), collects the read ends in creation order, and performs exactly one
pipe creation per iteration. -/
theorem klmLoop_ok (rem : Nat) : ∀ (i : Nat) (command : Command)
    (pipes : List SharedFD) (s : Sys),
    (∀ j, s.w.oracles.pipeOk j = true) →
    klmLoop i rem command pipes s =
      (.ok (appendPieces command (klmPieces i rem s.w.nextFd),
            pipes ++ klmReadEnds rem s.w.nextFd),
       klmEndSys rem s) := by
  induction rem with
  | zero =>
    intro i c pipes s h
    simp [klmLoop, klmPieces, klmReadEnds, appendPieces, klmEndSys]
  | succ r ih =>
    intro i c pipes s h
    have hpipe := pipe_ok s (h _)
    simp only [klmLoop, hpipe, Bool.not_true]
    rw [if_neg (by simp)]
    rw [ih (i + 1) _ _ (pipeOkSys s) h]
    rw [show klmEndSys (r + 1) s = klmEndSys r (pipeOkSys s) from rfl]
    by_cases hi : 0 < i <;>
      simp [appendPieces, klmPieces, klmReadEnds, pipeOkSys, hi, List.foldl_append]

/-- Claim C2: launching the kernel-log-monitor with N subscriber pipes (in a
world where the log pipe can be created and opened and anonymous pipe creation
succeeds) creates exactly N pipe pairs — the trace gains exactly N pipe
events — produces a single Command whose subscriber flag holds exactly the N
write-end descriptor references joined by comma separators in creation order
(and no subscriber flag at all when N = 0), and returns exactly the N read-end
descriptors to the caller in creation order. -/
theorem kernel_log_monitor_fanout (inst : InstanceSpecific) (n : Nat) (s : Sys)
    (hpe : s.w.oracles.pathExists inst.kernel_log_pipe_name = false)
    (hf : s.w.oracles.fifoOk inst.kernel_log_pipe_name = true)
    (ho : s.w.oracles.openOk inst.kernel_log_pipe_name = true)
    (hp : ∀ j, s.w.oracles.pipeOk j = true) :
    ∃ data s',
      LaunchKernelLogMonitor inst n s = (.ok data, s') ∧
      data.commands.length = 1 ∧
      data.pipes = klmReadEnds n (s.w.nextFd + 1) ∧
      data.pipes.length = n ∧
      (klmWriteEnds n (s.w.nextFd + 1)).length = n ∧
      (0 < n → ∀ c ∈ data.commands,
        c.args = [[.str "-log_pipe_fd=", .fd s.w.nextFd],
          .str "-subscriber_fds=" :: commaJoin (klmWriteEnds n (s.w.nextFd + 1))]) ∧
      (n = 0 → ∀ c ∈ data.commands,
        c.args = [[.str "-log_pipe_fd=", .fd s.w.nextFd]]) ∧
      s'.events = s.events ++
        Event.mkfifo inst.kernel_log_pipe_name 0o600 true ::
        Event.openFile inst.kernel_log_pipe_name true ::
        List.replicate n (Event.pipe true) := by
  have e1f : (s.mkfifo inst.kernel_log_pipe_name 0o600).1 = true := by
    rw [mkfifo_fst, hpe, hf]; rfl
  have e1s := mkfifo_snd_ok s inst.kernel_log_pipe_name 0o600 hpe hf
  have e2 := openRdwr_ok (mkfifoOkSys inst.kernel_log_pipe_name 0o600 s)
    inst.kernel_log_pipe_name ho
  rcases Nat.eq_zero_or_pos n with rfl | hn
  · refine ⟨⟨[(Command.create KernelLogMonitorBinary).AddParameter
        [.str "-log_pipe_fd=", .fd s.w.nextFd]], []⟩,
      openOkSys inst.kernel_log_pipe_name (mkfifoOkSys inst.kernel_log_pipe_name 0o600 s),
      ?_, rfl, rfl, rfl, rfl, fun h => absurd h (by omega), ?_, ?_⟩
    · simp only [LaunchKernelLogMonitor, e1f, Bool.not_true]
      rw [if_neg (by simp), e1s, e2]
      rfl
    · intro _ c hc
      simp only [List.mem_singleton] at hc
      subst hc
      rfl
    · simp [openOkSys, mkfifoOkSys]
  · refine ⟨⟨[appendPieces
        (⟨KernelLogMonitorBinary, ([] ++ [[.str "-log_pipe_fd=", .fd s.w.nextFd]]) ++
          [[.str "-subscriber_fds="]]⟩ : Command)
        (klmPieces 0 n (s.w.nextFd + 1))], klmReadEnds n (s.w.nextFd + 1)⟩,
      klmEndSys n (openOkSys inst.kernel_log_pipe_name
        (mkfifoOkSys inst.kernel_log_pipe_name 0o600 s)),
      ?_, rfl, rfl, klmReadEnds_length n _, klmWriteEnds_length n _, ?_,
      fun h => absurd hn (by omega), ?_⟩
    · simp only [LaunchKernelLogMonitor, e1f, Bool.not_true]
      rw [if_neg (by simp), e1s, e2, if_pos hn,
        klmLoop_ok n 0 _ []
          (openOkSys inst.kernel_log_pipe_name (mkfifoOkSys inst.kernel_log_pipe_name 0o600 s))
          hp]
      rfl
    · intro _ c hc
      simp only [List.mem_singleton] at hc
      subst hc
      rw [appendPieces_args]
      simp [klmPieces_zero]
    · simp [klmEndSys_events, openOkSys, mkfifoOkSys]

/-- Witness for C2 at N = 3 in the all-success world. -/
theorem kernel_log_monitor_fanout_witness :
    ∃ data s',
      LaunchKernelLogMonitor inst0 3 sys0 = (.ok data, s') ∧
      data.commands.length = 1 ∧
      data.pipes = klmReadEnds 3 (sys0.w.nextFd + 1) ∧
      data.pipes.length = 3 ∧
      (klmWriteEnds 3 (sys0.w.nextFd + 1)).length = 3 ∧
      (0 < 3 → ∀ c ∈ data.commands,
        c.args = [[.str "-log_pipe_fd=", .fd sys0.w.nextFd],
          .str "-subscriber_fds=" :: commaJoin (klmWriteEnds 3 (sys0.w.nextFd + 1))]) ∧
      (3 = 0 → ∀ c ∈ data.commands,
        c.args = [[.str "-log_pipe_fd=", .fd sys0.w.nextFd]]) ∧
      s'.events = sys0.events ++
        Event.mkfifo inst0.kernel_log_pipe_name 0o600 true ::
        Event.openFile inst0.kernel_log_pipe_name true ::
        List.replicate 3 (Event.pipe true) :=
  kernel_log_monitor_fanout inst0 3 sys0 rfl rfl rfl (fun _ => rfl)

/-- When creation and opening succeed at every path, the fifo loop succeeds —
regardless of which paths pre-exist, because it unlinks each path first — and
its trace is, per path in order: unlink, then mkfifo, then open. -/
theorem fifoLoop_ok (mode : Nat) (paths : List String) : ∀ (acc : List SharedFD) (s : Sys),
    (∀ p ∈ paths, s.w.oracles.fifoOk p = true ∧ s.w.oracles.openOk p = true) →
    (fifoLoop mode paths acc s).1 =
      some (acc ++ (List.range paths.length).map fun i => ⟨s.w.nextFd + i, true⟩) ∧
    (fifoLoop mode paths acc s).2.events = s.events ++ fifoLoopEvents mode paths := by
  induction paths with
  | nil => intro acc s h; simp [fifoLoop, fifoLoopEvents]
  | cons p rest ih =>
    intro acc s h
    have h0 := h p (List.mem_cons_self p rest)
    rw [fifoLoop_cons, if_pos h0.1, if_pos h0.2]
    obtain ⟨ih1, ih2⟩ := ih (acc ++ [⟨s.w.nextFd, true⟩]) (fifoStepSys mode p s)
      (fun q hq => h q (List.mem_cons_of_mem p hq))
    refine ⟨?_, ?_⟩
    · rw [ih1, List.append_assoc]
      congr 1
      simp only [fifoStepSys, List.length_cons, List.range_succ_eq_map,
        List.map_cons, List.map_map, List.singleton_append, Nat.add_zero]
      refine congrArg (acc ++ ·) (congrArg₂ List.cons rfl ?_)
      refine List.map_congr_left fun i _ => ?_
      simp only [Function.comp_apply, SharedFD.mk.injEq, and_true]
      omega
    · rw [ih2]
      simp [fifoStepSys, fifoLoopEvents]

/-- Counterexample to Claim C8 as stated: the logcat receiver creates its
named pipe at a per-instance path a previous run may have left behind but
performs no unlink first; with a stale pipe present its `mkfifo` fails, it
returns no command, and its trace contains no unlink event. -/
theorem logcat_receiver_no_unlink_counterexample :
    sysStale.w.oracles.pathExists inst0.logcat_pipe_name = true ∧
    sysStale.w.oracles.fifoOk inst0.logcat_pipe_name = true ∧
    (LogcatReceiver.Commands inst0 sysStale).1 = .ok [] ∧
    (LogcatReceiver.Commands inst0 sysStale).2.events =
      [Event.mkfifo "dir/logcat-pipe" 0o600 false] ∧
    ∀ e ∈ (LogcatReceiver.Commands inst0 sysStale).2.events,
      isUnlinkEv e = false := by
  refine ⟨rfl, rfl, rfl, rfl, ?_⟩
  intro e he
  simp only [show (LogcatReceiver.Commands inst0 sysStale).2.events =
    [Event.mkfifo "dir/logcat-pipe" 0o600 false] from rfl,
    List.mem_singleton] at he
  subst he
  rfl

/-- Claim C8 (amended): of the pipe-creating service definitions, only the
bluetooth-bridge and secure-environment ones unlink the possibly-stale fifo
paths before creating them; for those two the trace is
unlink-then-mkfifo-then-open per path and a pre-existing (stale) pipe never
causes creation to fail; the logcat, GNSS, console and kernel-log pipe
creations perform no unlink, so a stale pipe makes their `mkfifo` fail and
the service contributes no command. -/
theorem stale_pipes_unlink_bt_secure_only (config : CuttlefishConfig)
    (inst : InstanceSpecific) (s : Sys)
    (hbt : config.enable_host_bluetooth = true)
    (hfifo : ∀ p, s.w.oracles.fifoOk p = true)
    (hopen : ∀ p, s.w.oracles.openOk p = true) :
    (∃ c s', BluetoothConnector.Commands config inst s = (.ok [c], s') ∧
      s'.events = s.events ++ fifoLoopEvents 0o660 (BluetoothConnector.fifoPaths inst)) ∧
    (∃ c s', SecureEnvironment.Commands config inst s = (.ok [c], s') ∧
      s'.events = s.events ++ fifoLoopEvents 0o600 (SecureEnvironment.fifoPaths inst)) ∧
    (s.w.oracles.pathExists inst.logcat_pipe_name = true →
      (LogcatReceiver.Commands inst s).1 = .ok [] ∧
      ∀ e ∈ (LogcatReceiver.Commands inst s).2.events.drop s.events.length,
        isUnlinkEv e = false) ∧
    (config.enable_gnss_grpc_proxy = true →
      s.fileExists GnssGrpcProxyBinary = true →
      s.w.oracles.pathExists inst.gnss_in_pipe_name = true →
      (GnssGrpcProxyServer.Commands config inst s).1 = .ok [] ∧
      ∀ e ∈ (GnssGrpcProxyServer.Commands config inst s).2.events.drop s.events.length,
        isUnlinkEv e = false) ∧
    (config.console = true →
      s.w.oracles.pathExists inst.console_in_pipe_name = true →
      (ConsoleForwarder.Commands config inst s).1 = .ok [] ∧
      ∀ e ∈ (ConsoleForwarder.Commands config inst s).2.events.drop s.events.length,
        isUnlinkEv e = false) ∧
    (s.w.oracles.pathExists inst.kernel_log_pipe_name = true →
      ∀ n, (LaunchKernelLogMonitor inst n s).1 = .ok ⟨[], []⟩ ∧
        ∀ e ∈ (LaunchKernelLogMonitor inst n s).2.events.drop s.events.length,
          isUnlinkEv e = false) := by
  refine ⟨?_, ?_, ?_, ?_, ?_, ?_⟩
  · obtain ⟨h1, h2⟩ := fifoLoop_ok 0o660 (BluetoothConnector.fifoPaths inst) [] s
      (fun p _ => ⟨hfifo p, hopen p⟩)
    rcases hEq : fifoLoop 0o660 (BluetoothConnector.fifoPaths inst) [] s with ⟨res, s'⟩
    rw [hEq] at h1 h2
    have h1' : res = some ([] ++ (List.range (BluetoothConnector.fifoPaths inst).length).map
        (fun i => (⟨s.w.nextFd + i, true⟩ : SharedFD))) := h1
    have h2' : s'.events = s.events ++
        fifoLoopEvents 0o660 (BluetoothConnector.fifoPaths inst) := h2
    subst h1'
    simp only [BluetoothConnector.Commands, hbt, Bool.not_true]
    rw [if_neg (by simp), hEq]
    exact ⟨_, s', rfl, h2'⟩
  · obtain ⟨h1, h2⟩ := fifoLoop_ok 0o600 (SecureEnvironment.fifoPaths inst) [] s
      (fun p _ => ⟨hfifo p, hopen p⟩)
    rcases hEq : fifoLoop 0o600 (SecureEnvironment.fifoPaths inst) [] s with ⟨res, s'⟩
    rw [hEq] at h1 h2
    have h1' : res = some ([] ++ (List.range (SecureEnvironment.fifoPaths inst).length).map
        (fun i => (⟨s.w.nextFd + i, true⟩ : SharedFD))) := h1
    have h2' : s'.events = s.events ++
        fifoLoopEvents 0o600 (SecureEnvironment.fifoPaths inst) := h2
    subst h1'
    simp only [SecureEnvironment.Commands]
    rw [hEq]
    exact ⟨_, s', rfl, h2'⟩
  · intro hstale
    have hev : (LogcatReceiver.Commands inst s).2.events =
        s.events ++ [Event.mkfifo inst.logcat_pipe_name 0o600 false] := by
      simp [LogcatReceiver.Commands, Sys.mkfifo, hstale]
    refine ⟨by simp [LogcatReceiver.Commands, Sys.mkfifo, hstale], ?_⟩
    intro e he
    rw [hev, List.drop_left] at he
    rcases List.mem_singleton.mp he with rfl
    rfl
  · intro hflag hbin hstale
    have hbin2 : s.w.oracles.fileExists GnssGrpcProxyBinary = true := hbin
    have hev : (GnssGrpcProxyServer.Commands config inst s).2.events =
        s.events ++ [Event.mkfifo inst.gnss_in_pipe_name 0o600 false] := by
      simp [GnssGrpcProxyServer.Commands, inOutPipes, Sys.mkfifo, Sys.fileExists,
        hflag, hbin2, hstale]
    refine ⟨by simp [GnssGrpcProxyServer.Commands, inOutPipes, Sys.mkfifo,
      Sys.fileExists, hflag, hbin2, hstale], ?_⟩
    intro e he
    rw [hev, List.drop_left] at he
    rcases List.mem_singleton.mp he with rfl
    rfl
  · intro hflag hstale
    have hev : (ConsoleForwarder.Commands config inst s).2.events =
        s.events ++ [Event.mkfifo inst.console_in_pipe_name 0o600 false] := by
      simp [ConsoleForwarder.Commands, inOutPipes, Sys.mkfifo, hflag, hstale]
    refine ⟨by simp [ConsoleForwarder.Commands, inOutPipes, Sys.mkfifo, hflag, hstale], ?_⟩
    intro e he
    rw [hev, List.drop_left] at he
    rcases List.mem_singleton.mp he with rfl
    rfl
  · intro hstale n
    have hev : (LaunchKernelLogMonitor inst n s).2.events =
        s.events ++ [Event.mkfifo inst.kernel_log_pipe_name 0o600 false] := by
      simp [LaunchKernelLogMonitor, Sys.mkfifo, hstale]
    refine ⟨by simp [LaunchKernelLogMonitor, Sys.mkfifo, hstale], ?_⟩
    intro e he
    rw [hev, List.drop_left] at he
    rcases List.mem_singleton.mp he with rfl
    rfl

/-- Witness for the amended C8 in a concrete world where every path is
stale (pre-existing) and every optional pipe-creating service is enabled. -/
theorem stale_pipes_unlink_bt_secure_only_witness :
    (∃ c s', BluetoothConnector.Commands cfgStale inst0 sysStale = (.ok [c], s') ∧
      s'.events = sysStale.events ++
        fifoLoopEvents 0o660 (BluetoothConnector.fifoPaths inst0)) ∧
    (∃ c s', SecureEnvironment.Commands cfgStale inst0 sysStale = (.ok [c], s') ∧
      s'.events = sysStale.events ++
        fifoLoopEvents 0o600 (SecureEnvironment.fifoPaths inst0)) ∧
    (sysStale.w.oracles.pathExists inst0.logcat_pipe_name = true →
      (LogcatReceiver.Commands inst0 sysStale).1 = .ok [] ∧
      ∀ e ∈ (LogcatReceiver.Commands inst0 sysStale).2.events.drop
          sysStale.events.length,
        isUnlinkEv e = false) ∧
    (cfgStale.enable_gnss_grpc_proxy = true →
      sysStale.fileExists GnssGrpcProxyBinary = true →
      sysStale.w.oracles.pathExists inst0.gnss_in_pipe_name = true →
      (GnssGrpcProxyServer.Commands cfgStale inst0 sysStale).1 = .ok [] ∧
      ∀ e ∈ (GnssGrpcProxyServer.Commands cfgStale inst0 sysStale).2.events.drop
          sysStale.events.length,
        isUnlinkEv e = false) ∧
    (cfgStale.console = true →
      sysStale.w.oracles.pathExists inst0.console_in_pipe_name = true →
      (ConsoleForwarder.Commands cfgStale inst0 sysStale).1 = .ok [] ∧
      ∀ e ∈ (ConsoleForwarder.Commands cfgStale inst0 sysStale).2.events.drop
          sysStale.events.length,
        isUnlinkEv e = false) ∧
    (sysStale.w.oracles.pathExists inst0.kernel_log_pipe_name = true →
      ∀ n, (LaunchKernelLogMonitor inst0 n sysStale).1 = .ok ⟨[], []⟩ ∧
        ∀ e ∈ (LaunchKernelLogMonitor inst0 n sysStale).2.events.drop
            sysStale.events.length,
          isUnlinkEv e = false) :=
  stale_pipes_unlink_bt_secure_only cfgStale inst0 sysStale rfl
    (fun _ => rfl) (fun _ => rfl)

/-- Claim C6: the composition pass invokes every registered service in the
fixed registration order and returns exactly the concatenation of their
outputs — when each service, run in sequence over the threaded OS state,
returns command list `ls i`, `Compose` returns `(ls 0 ++ ls 1 ++ ...)` and the
final OS state of the sequential runs, adding, dropping and reordering
nothing. -/
theorem compose_concatenates (svcs : List CommandSource)
    (config : CuttlefishConfig) (inst : InstanceSpecific) (s : Sys)
    (ls : List (List Command))
    (h : (runAll svcs config inst s).1 = ls.map SvcResult.ok) :
    Compose svcs config inst s =
      (SvcResult.ok ls.flatten, (runAll svcs config inst s).2) := by
  induction svcs generalizing s ls with
  | nil =>
    cases ls with
    | nil => simp [Compose, runAll]
    | cons l ls => simp [runAll] at h
  | cons f rest ih =>
    rcases hEq : f config inst s with ⟨r, s'⟩
    rcases hRun : runAll rest config inst s' with ⟨rs, s''⟩
    have hAll : runAll (f :: rest) config inst s = (r :: rs, s'') := by
      simp [runAll, hEq, hRun]
    rw [hAll] at h ⊢
    cases ls with
    | nil => simp at h
    | cons l ls =>
      simp only [List.map_cons, List.cons.injEq] at h
      obtain ⟨hr, hrs⟩ := h
      have ihh := ih s' ls (by rw [hRun]; exact hrs)
      rw [hRun] at ihh
      simp only [Compose, hEq, hr, ihh]
      simp

/-- Witness for C6: the full registry at the all-flags-off configuration in
the all-success world: every service returns `ok`, and `Compose` returns
their concatenation. -/
theorem compose_concatenates_witness :
    Compose launchComponent cfgOff inst0 sys0 =
      (SvcResult.ok ((runAll launchComponent cfgOff inst0 sys0).1.map
          (fun r => match r with | .ok cs => cs | .exit _ => [])).flatten,
        (runAll launchComponent cfgOff inst0 sys0).2) := by
  have h := compose_concatenates launchComponent cfgOff inst0 sys0
    ((runAll launchComponent cfgOff inst0 sys0).1.map
      (fun r => match r with | .ok cs => cs | .exit _ => []))
    (by decide)
  rw [h]

theorem rootCanal_det : ServiceDet RootCanal.Commands := by
  intro config inst s₁ s₂ h
  by_cases hb : config.enable_host_bluetooth <;>
    simp [RootCanal.Commands, hb, SvcResult.shape, h]

theorem metricsService_det :
    ServiceDet (fun config _ s => MetricsService.Commands config s) := by
  intro config inst s₁ s₂ h
  by_cases hm : config.enable_metrics = MetricsAnswer.kYes <;>
    simp [MetricsService.Commands, hm, SvcResult.shape, h]

theorem vehicleHalServer_det : ServiceDet VehicleHalServer.Commands := by
  intro config inst s₁ s₂ h
  simp only [VehicleHalServer.Commands, Sys.fileExists, h]
  split_ifs <;> simp [SvcResult.shape, h]

theorem configServer_det (inst : InstanceSpecific) (s₁ s₂ : Sys)
    (h : s₁.w.oracles = s₂.w.oracles) :
    (ConfigServer.Commands inst s₁).1.shape = (ConfigServer.Commands inst s₂).1.shape ∧
    (ConfigServer.Commands inst s₁).2.w.oracles =
      (ConfigServer.Commands inst s₂).2.w.oracles := by
  simp only [ConfigServer.Commands, Sys.vsockServer, h]
  split_ifs <;>
    simp [SvcResult.shape, Command.shape, ArgPiece.shape, Command.AddParameter,
      Command.create, h]

theorem logcatReceiver_det (inst : InstanceSpecific) (s₁ s₂ : Sys)
    (h : s₁.w.oracles = s₂.w.oracles) :
    (LogcatReceiver.Commands inst s₁).1.shape = (LogcatReceiver.Commands inst s₂).1.shape ∧
    (LogcatReceiver.Commands inst s₁).2.w.oracles =
      (LogcatReceiver.Commands inst s₂).2.w.oracles := by
  simp only [LogcatReceiver.Commands, Sys.mkfifo, Sys.openRdwr, h]
  split_ifs <;>
    simp [SvcResult.shape, Command.shape, ArgPiece.shape, Command.AddParameter,
      Command.create, h]

theorem mkdir_ok (s : Sys) (p : String) (h : s.w.oracles.mkdirOk p = true) :
    s.mkdir p = (true,
      { w := { s.w with oracles := { s.w.oracles with
          dirExists := fun q => if q = p then true else s.w.oracles.dirExists q } }
        events := s.events ++ [.mkdir p true] }) := by
  simp [Sys.mkdir, h]

theorem mkdir_fail (s : Sys) (p : String) (h : s.w.oracles.mkdirOk p = false) :
    s.mkdir p = (false, { s with events := s.events ++ [.mkdir p false] }) := by
  simp [Sys.mkdir, h]

theorem tombstoneBind_det (inst : InstanceSpecific) (dir : String) (t₁ t₂ : Sys)
    (h : t₁.w.oracles = t₂.w.oracles) :
    (TombstoneReceiver.bindAndCommand inst dir t₁).1.shape =
      (TombstoneReceiver.bindAndCommand inst dir t₂).1.shape ∧
    (TombstoneReceiver.bindAndCommand inst dir t₁).2.w.oracles =
      (TombstoneReceiver.bindAndCommand inst dir t₂).2.w.oracles := by
  simp only [TombstoneReceiver.bindAndCommand, Sys.vsockServer, h]
  split_ifs <;>
    simp [SvcResult.shape, Command.shape, ArgPiece.shape, Command.AddParameter,
      Command.create, h]

theorem tombstoneReceiver_det (inst : InstanceSpecific) (s₁ s₂ : Sys)
    (h : s₁.w.oracles = s₂.w.oracles) :
    (TombstoneReceiver.Commands inst s₁).1.shape =
      (TombstoneReceiver.Commands inst s₂).1.shape ∧
    (TombstoneReceiver.Commands inst s₁).2.w.oracles =
      (TombstoneReceiver.Commands inst s₂).2.w.oracles := by
  simp only [TombstoneReceiver.Commands, Sys.directoryExists, h]
  by_cases hd : s₂.w.oracles.dirExists (inst.PerInstancePath "tombstones") = true
  · rw [hd]
    simp only [Bool.not_true]
    rw [if_neg (by simp), if_neg (by simp)]
    exact tombstoneBind_det inst _ s₁ s₂ h
  · simp only [Bool.not_eq_true] at hd
    rw [hd]
    simp only [Bool.not_false, if_true]
    by_cases hm : s₂.w.oracles.mkdirOk (inst.PerInstancePath "tombstones") = true
    · rw [mkdir_ok s₁ _ (by rw [h]; exact hm), mkdir_ok s₂ _ hm]
      simp only [Bool.not_true, Bool.false_eq_true, if_false]
      exact tombstoneBind_det inst _ _ _ (by simp [h])
    · simp only [Bool.not_eq_true] at hm
      rw [mkdir_fail s₁ _ (by rw [h]; exact hm), mkdir_fail s₂ _ hm]
      simp [SvcResult.shape, h]

theorem mkfifo_snd_oracles (s : Sys) (p : String) (mode : Nat) :
    (s.mkfifo p mode).2.w.oracles = { s.w.oracles with
      pathExists := fun q => if q = p then
        ((!s.w.oracles.pathExists p && s.w.oracles.fifoOk p) ||
          s.w.oracles.pathExists q)
        else s.w.oracles.pathExists q } := rfl

theorem openRdwr_fst_isOpen (s : Sys) (p : String) :
    (s.openRdwr p).1.isOpen = s.w.oracles.openOk p := by
  simp only [Sys.openRdwr]
  split_ifs with hcase <;> simp [hcase]

theorem openRdwr_snd_oracles (s : Sys) (p : String) :
    (s.openRdwr p).2.w.oracles = s.w.oracles := by
  simp only [Sys.openRdwr]
  split_ifs <;> rfl

theorem mkfifo_obs_congr (t₁ t₂ : Sys) (p : String) (mode : Nat)
    (h : t₁.w.oracles = t₂.w.oracles) :
    (t₁.mkfifo p mode).1 = (t₂.mkfifo p mode).1 ∧
    (t₁.mkfifo p mode).2.w.oracles = (t₂.mkfifo p mode).2.w.oracles := by
  constructor
  · rw [mkfifo_fst, mkfifo_fst, h]
  · rw [mkfifo_snd_oracles, mkfifo_snd_oracles, h]

theorem openRdwr_obs_congr (t₁ t₂ : Sys) (p : String)
    (h : t₁.w.oracles = t₂.w.oracles) :
    (t₁.openRdwr p).1.isOpen = (t₂.openRdwr p).1.isOpen ∧
    (t₁.openRdwr p).2.w.oracles = (t₂.openRdwr p).2.w.oracles := by
  constructor
  · rw [openRdwr_fst_isOpen, openRdwr_fst_isOpen, h]
  · rw [openRdwr_snd_oracles, openRdwr_snd_oracles, h]

theorem inOutPipes_det (inName outName : String) (s₁ s₂ : Sys)
    (h : s₁.w.oracles = s₂.w.oracles) :
    ((inOutPipes inName outName s₁).1 = none ↔
      (inOutPipes inName outName s₂).1 = none) ∧
    (inOutPipes inName outName s₁).2.w.oracles =
      (inOutPipes inName outName s₂).2.w.oracles := by
  have H1 := mkfifo_obs_congr s₁ s₂ inName 0o600 h
  have H2 := mkfifo_obs_congr (s₁.mkfifo inName 0o600).2
    (s₂.mkfifo inName 0o600).2 outName 0o660 H1.2
  have H3 := openRdwr_obs_congr ((s₁.mkfifo inName 0o600).2.mkfifo outName 0o660).2
    ((s₂.mkfifo inName 0o600).2.mkfifo outName 0o660).2 inName H2.2
  have H4 := openRdwr_obs_congr
    (((s₁.mkfifo inName 0o600).2.mkfifo outName 0o660).2.openRdwr inName).2
    (((s₂.mkfifo inName 0o600).2.mkfifo outName 0o660).2.openRdwr inName).2
    outName H3.2
  simp only [inOutPipes]
  rw [H1.1, H2.1, H3.1, H4.1]
  split_ifs <;> simp [H1.2, H2.2, H3.2, H4.2]

theorem gnssGrpcProxyServer_det : ServiceDet GnssGrpcProxyServer.Commands := by
  intro config inst s₁ s₂ h
  obtain ⟨hiff, hobs⟩ :=
    inOutPipes_det inst.gnss_in_pipe_name inst.gnss_out_pipe_name s₁ s₂ h
  simp only [GnssGrpcProxyServer.Commands, Sys.fileExists, h]
  by_cases hg : (!config.enable_gnss_grpc_proxy ||
      !s₂.w.oracles.fileExists GnssGrpcProxyBinary) = true
  · rw [if_pos hg, if_pos hg]
    exact ⟨rfl, h⟩
  · rw [if_neg hg, if_neg hg]
    rcases hEq₁ : inOutPipes inst.gnss_in_pipe_name inst.gnss_out_pipe_name s₁
      with ⟨res₁, s₁'⟩
    rcases hEq₂ : inOutPipes inst.gnss_in_pipe_name inst.gnss_out_pipe_name s₂
      with ⟨res₂, s₂'⟩
    simp only [hEq₁, hEq₂] at hiff hobs ⊢
    have hobs' : s₁'.w.oracles = s₂'.w.oracles := hobs
    cases res₁ with
    | none =>
      cases res₂ with
      | none => exact ⟨rfl, hobs'⟩
      | some v => simp at hiff
    | some v₁ =>
      cases res₂ with
      | none => simp at hiff
      | some v₂ =>
        by_cases hfp : inst.gnss_file_path ≠ "" <;>
          simp [hfp, SvcResult.shape, Command.shape, ArgPiece.shape,
            Command.AddParameter, Command.create, hobs']

theorem consoleForwarder_det : ServiceDet ConsoleForwarder.Commands := by
  intro config inst s₁ s₂ h
  obtain ⟨hiff, hobs⟩ :=
    inOutPipes_det inst.console_in_pipe_name inst.console_out_pipe_name s₁ s₂ h
  simp only [ConsoleForwarder.Commands]
  by_cases hg : (!config.console) = true
  · rw [if_pos hg, if_pos hg]
    exact ⟨rfl, h⟩
  · rw [if_neg hg, if_neg hg]
    rcases hEq₁ : inOutPipes inst.console_in_pipe_name inst.console_out_pipe_name s₁
      with ⟨res₁, s₁'⟩
    rcases hEq₂ : inOutPipes inst.console_in_pipe_name inst.console_out_pipe_name s₂
      with ⟨res₂, s₂'⟩
    simp only [hEq₁, hEq₂] at hiff hobs ⊢
    have hobs' : s₁'.w.oracles = s₂'.w.oracles := hobs
    cases res₁ with
    | none =>
      cases res₂ with
      | none => exact ⟨rfl, hobs'⟩
      | some v => simp at hiff
    | some v₁ =>
      cases res₂ with
      | none => simp at hiff
      | some v₂ =>
        simp [SvcResult.shape, Command.shape, ArgPiece.shape,
          Command.AddParameter, Command.create, hobs']

theorem fifoLoop_det (mode : Nat) (paths : List String) :
    ∀ (acc₁ acc₂ : List SharedFD) (s₁ s₂ : Sys), s₁.w.oracles = s₂.w.oracles →
    (((fifoLoop mode paths acc₁ s₁).1 = none) ↔
      ((fifoLoop mode paths acc₂ s₂).1 = none)) ∧
    (fifoLoop mode paths acc₁ s₁).2.w.oracles =
      (fifoLoop mode paths acc₂ s₂).2.w.oracles := by
  induction paths with
  | nil => intro acc₁ acc₂ s₁ s₂ h; simp [fifoLoop, h]
  | cons p rest ih =>
    intro acc₁ acc₂ s₁ s₂ h
    rw [fifoLoop_cons, fifoLoop_cons, h]
    by_cases hf : s₂.w.oracles.fifoOk p = true
    · rw [if_pos hf, if_pos hf]
      by_cases ho : s₂.w.oracles.openOk p = true
      · rw [if_pos ho, if_pos ho]
        exact ih _ _ _ _ (by simp [fifoStepSys, h])
      · rw [if_neg ho, if_neg ho]
        simp [fifoOpenFailSys, h]
    · rw [if_neg hf, if_neg hf]
      simp [fifoCreateFailSys, h]

theorem bluetoothConnector_det : ServiceDet BluetoothConnector.Commands := by
  intro config inst s₁ s₂ h
  by_cases hb : config.enable_host_bluetooth
  · obtain ⟨hiff, hobs⟩ :=
      fifoLoop_det 0o660 (BluetoothConnector.fifoPaths inst) [] [] s₁ s₂ h
    simp only [BluetoothConnector.Commands, hb, Bool.not_true]
    rw [if_neg (by simp), if_neg (by simp)]
    rcases hEq₁ : fifoLoop 0o660 (BluetoothConnector.fifoPaths inst) [] s₁ with ⟨res₁, s₁'⟩
    rcases hEq₂ : fifoLoop 0o660 (BluetoothConnector.fifoPaths inst) [] s₂ with ⟨res₂, s₂'⟩
    simp only [hEq₁, hEq₂] at hiff hobs ⊢
    have hobs' : s₁'.w.oracles = s₂'.w.oracles := hobs
    cases res₁ with
    | none =>
      cases res₂ with
      | none => exact ⟨rfl, hobs'⟩
      | some v => simp at hiff
    | some v₁ =>
      cases res₂ with
      | none => simp at hiff
      | some v₂ =>
        refine ⟨?_, hobs'⟩
        simp [SvcResult.shape, Command.shape, ArgPiece.shape,
          Command.AddParameter, Command.create]
  · simp [BluetoothConnector.Commands, hb, SvcResult.shape, h]

theorem secureEnvironment_det : ServiceDet SecureEnvironment.Commands := by
  intro config inst s₁ s₂ h
  obtain ⟨hiff, hobs⟩ :=
    fifoLoop_det 0o600 (SecureEnvironment.fifoPaths inst) [] [] s₁ s₂ h
  simp only [SecureEnvironment.Commands]
  rcases hEq₁ : fifoLoop 0o600 (SecureEnvironment.fifoPaths inst) [] s₁ with ⟨res₁, s₁'⟩
  rcases hEq₂ : fifoLoop 0o600 (SecureEnvironment.fifoPaths inst) [] s₂ with ⟨res₂, s₂'⟩
  simp only [hEq₁, hEq₂] at hiff hobs ⊢
  have hobs' : s₁'.w.oracles = s₂'.w.oracles := hobs
  cases res₁ with
  | none =>
    cases res₂ with
    | none => exact ⟨rfl, hobs'⟩
    | some v => simp at hiff
  | some v₁ =>
    cases res₂ with
    | none => simp at hiff
    | some v₂ =>
      refine ⟨?_, hobs'⟩
      simp [SvcResult.shape, Command.shape, ArgPiece.shape,
        Command.AddParameter, Command.create]

theorem compose_det (svcs : List CommandSource)
    (hdet : ∀ f ∈ svcs, ServiceDet f) :
    ∀ (config : CuttlefishConfig) (inst : InstanceSpecific) (s₁ s₂ : Sys),
    s₁.w.oracles = s₂.w.oracles →
    (Compose svcs config inst s₁).1.shape = (Compose svcs config inst s₂).1.shape := by
  induction svcs with
  | nil => intro config inst s₁ s₂ h; rfl
  | cons f rest ih =>
    intro config inst s₁ s₂ h
    obtain ⟨hsh, hobs⟩ := hdet f (List.mem_cons_self f rest) config inst s₁ s₂ h
    rcases hEq₁ : f config inst s₁ with ⟨r₁, s₁'⟩
    rcases hEq₂ : f config inst s₂ with ⟨r₂, s₂'⟩
    rw [hEq₁, hEq₂] at hsh hobs
    have hobs' : s₁'.w.oracles = s₂'.w.oracles := hobs
    have hsh' : r₁.shape = r₂.shape := hsh
    have hrest := ih (fun g hg => hdet g (List.mem_cons_of_mem f hg))
      config inst s₁' s₂' hobs'
    simp only [Compose, hEq₁, hEq₂]
    cases r₁ with
    | exit c₁ =>
      cases r₂ with
      | exit c₂ =>
        simp only [SvcResult.shape, ResShape.exit.injEq] at hsh'
        simp [SvcResult.shape, hsh']
      | ok cs₂ => simp [SvcResult.shape] at hsh'
    | ok cs₁ =>
      cases r₂ with
      | exit c₂ => simp [SvcResult.shape] at hsh'
      | ok cs₂ =>
        simp only [SvcResult.shape, ResShape.ok.injEq] at hsh'
        rcases hC₁ : Compose rest config inst s₁' with ⟨rr₁, ss₁⟩
        rcases hC₂ : Compose rest config inst s₂' with ⟨rr₂, ss₂⟩
        simp only [hC₁, hC₂] at hrest ⊢
        have hrest' : rr₁.shape = rr₂.shape := hrest
        cases rr₁ with
        | exit d₁ =>
          cases rr₂ with
          | exit d₂ =>
            simp only [SvcResult.shape, ResShape.exit.injEq] at hrest'
            simp [SvcResult.shape, hrest']
          | ok ds₂ => simp [SvcResult.shape] at hrest'
        | ok ds₁ =>
          cases rr₂ with
          | exit d₂ => simp [SvcResult.shape] at hrest'
          | ok ds₂ =>
            simp only [SvcResult.shape, ResShape.ok.injEq] at hrest'
            simp [SvcResult.shape, hsh', hrest']

/-- Claim C5: composing the full registry on two OS states with identical
configuration and identical oracle outcomes (only the descriptor numbering
and prior trace may differ) yields results of identical shape: same
success/exit status, and for every command the same binary path and the same
argument names, values and order — only the numeric descriptor values can
differ, and those are erased by `Command.shape`. -/
theorem compose_deterministic_up_to_fds (config : CuttlefishConfig)
    (inst : InstanceSpecific) (s₁ s₂ : Sys) (h : s₁.w.oracles = s₂.w.oracles) :
    (Compose launchComponent config inst s₁).1.shape =
      (Compose launchComponent config inst s₂).1.shape := by
  refine compose_det launchComponent ?_ config inst s₁ s₂ h
  intro f hf
  simp only [launchComponent, List.mem_cons, List.not_mem_nil, or_false] at hf
  rcases hf with rfl | rfl | rfl | rfl | rfl | rfl | rfl | rfl | rfl | rfl
  · exact fun config inst t₁ t₂ ht => configServer_det inst t₁ t₂ ht
  · exact consoleForwarder_det
  · exact bluetoothConnector_det
  · exact gnssGrpcProxyServer_det
  · exact fun config inst t₁ t₂ ht => logcatReceiver_det inst t₁ t₂ ht
  · exact fun config inst t₁ t₂ ht => metricsService_det config inst t₁ t₂ ht
  · exact rootCanal_det
  · exact secureEnvironment_det
  · exact fun config inst t₁ t₂ ht => tombstoneReceiver_det inst t₁ t₂ ht
  · exact vehicleHalServer_det

/-- Witness for C5: two runs from descriptor counters 3 and 100. -/
theorem compose_deterministic_up_to_fds_witness :
    (Compose launchComponent cfgBt inst0 sys0).1.shape =
      (Compose launchComponent cfgBt inst0 sys0b).1.shape :=
  compose_deterministic_up_to_fds cfgBt inst0 sys0 sys0b rfl

theorem gReadIdxs_append (a b : List BtEvent) :
    gReadIdxs (a ++ b) = gReadIdxs a ++ gReadIdxs b := by
  simp [gReadIdxs]

theorem gWriteIdxs_append (a b : List BtEvent) :
    gWriteIdxs (a ++ b) = gWriteIdxs a ++ gWriteIdxs b := by
  simp [gWriteIdxs]

theorem btInv_init : BtInv btInit := by
  refine ⟨by simp [btInit], by simp [btInit], GTrace.start, rfl, rfl,
    by simp [btInit]⟩

theorem btStep_guest_read (o : BtOracle) (st : BtState) (hg : st.g = .read) :
    btStep o .guest st =
      { st with g := .write st.gReads, gReads := st.gReads + 1,
                events := st.events ++ [.gRead st.gReads] } := by
  simp [btStep, guestStep, hg]

theorem btStep_guest_write_ok (o : BtOracle) (st : BtState) (i : Nat)
    (hg : st.g = .write i) (hw : o.writeOk st.sock i = true) :
    btStep o .guest st =
      { st with g := .read, events := st.events ++ [.gWrite i true] } := by
  simp [btStep, guestStep, hg, hw]

theorem btStep_guest_write_fail (o : BtOracle) (st : BtState) (i : Nat)
    (hg : st.g = .write i) (hw : o.writeOk st.sock i = false) :
    btStep o .guest st =
      { st with g := .reconnect, events := st.events ++ [.gWrite i false] } := by
  simp [btStep, guestStep, hg, hw]

theorem btStep_guest_reconnect_free (o : BtOracle) (st : BtState)
    (hg : st.g = .reconnect) (hl : st.lock = none) :
    btStep o .guest st = { st with g := .opening, lock := some .guest } := by
  simp [btStep, guestStep, hg, hl]

theorem btStep_guest_reconnect_blocked (o : BtOracle) (st : BtState) (th : BtThread)
    (hg : st.g = .reconnect) (hl : st.lock = some th) :
    btStep o .guest st = st := by
  simp [btStep, guestStep, hg, hl]

theorem btStep_guest_opening (o : BtOracle) (st : BtState) (hg : st.g = .opening) :
    btStep o .guest st =
      { st with g := .read, lock := none, sock := st.opens + 1,
                opens := st.opens + 1,
                events := st.events ++ [.gOpen (st.opens + 1)] } := by
  simp [btStep, guestStep, hg]

theorem btStep_host_read_ok (o : BtOracle) (st : BtState) (hh : st.h = .read)
    (hr : o.sockRead st.sock st.hReads = true) :
    btStep o .host st =
      { st with h := .write st.hReads, hReads := st.hReads + 1,
                events := st.events ++ [.hRead st.hReads true] } := by
  simp [btStep, hostStep, hh, hr]

theorem btStep_host_read_fail (o : BtOracle) (st : BtState) (hh : st.h = .read)
    (hr : o.sockRead st.sock st.hReads = false) :
    btStep o .host st =
      { st with h := .reconnect, hReads := st.hReads + 1,
                events := st.events ++ [.hRead st.hReads false] } := by
  simp [btStep, hostStep, hh, hr]

theorem btStep_host_write (o : BtOracle) (st : BtState) (i : Nat)
    (hh : st.h = .write i) :
    btStep o .host st =
      { st with h := .read, events := st.events ++ [.hWrite i] } := by
  simp [btStep, hostStep, hh]

theorem btStep_host_reconnect_free (o : BtOracle) (st : BtState)
    (hh : st.h = .reconnect) (hl : st.lock = none) :
    btStep o .host st = { st with h := .opening, lock := some .host } := by
  simp [btStep, hostStep, hh, hl]

theorem btStep_host_reconnect_blocked (o : BtOracle) (st : BtState) (th : BtThread)
    (hh : st.h = .reconnect) (hl : st.lock = some th) :
    btStep o .host st = st := by
  simp [btStep, hostStep, hh, hl]

theorem btStep_host_opening (o : BtOracle) (st : BtState) (hh : st.h = .opening) :
    btStep o .host st =
      { st with h := .read, lock := none, sock := st.opens + 1,
                opens := st.opens + 1,
                events := st.events ++ [.hOpen (st.opens + 1)] } := by
  simp [btStep, hostStep, hh]

theorem btInv_step (o : BtOracle) (t : BtThread) (st : BtState) (h : BtInv st) :
    BtInv (btStep o t st) := by
  obtain ⟨h1, h2, h3, h4, h5, h6⟩ := h
  cases t with
  | guest =>
    cases hg : st.g with
    | read =>
      rw [hg] at h3 h5
      simp only [pendingW, Nat.sub_zero] at h5
      rw [btStep_guest_read o st hg]
      unfold BtInv
      refine ⟨by simp, h2, ?_, ?_, ?_, ?_⟩
      · simpa [List.filter_append, isGuestEv] using GTrace.read h3
      · show gReadIdxs (st.events ++ [BtEvent.gRead st.gReads]) = _
        rw [gReadIdxs_append, h4]
        simp [gReadIdxs, List.range_succ]
      · show gWriteIdxs (st.events ++ [BtEvent.gRead st.gReads]) = _
        rw [gWriteIdxs_append, h5]
        simp [gWriteIdxs, pendingW]
      · intro j hj
        have hj' : GuestPc.write st.gReads = GuestPc.write j := hj
        injection hj' with hj''
        exact congrArg Nat.succ hj''.symm
    | write i =>
      rw [hg] at h3 h5
      have hii := h6 i hg
      simp only [pendingW] at h5
      have hwr : gWriteIdxs st.events ++ [i] = List.range st.gReads := by
        rw [h5]
        have hv : st.gReads - 1 = i := by omega
        rw [hv, ← List.range_succ]
        exact congrArg List.range hii
      by_cases hw : o.writeOk st.sock i
      · rw [btStep_guest_write_ok o st i hg hw]
        unfold BtInv
        refine ⟨by simp, h2, ?_, ?_, ?_, by simp⟩
        · simpa [List.filter_append, isGuestEv] using GTrace.wok h3
        · show gReadIdxs (st.events ++ [BtEvent.gWrite i true]) = _
          rw [gReadIdxs_append, h4]
          simp [gReadIdxs]
        · show gWriteIdxs (st.events ++ [BtEvent.gWrite i true]) = _
          rw [gWriteIdxs_append]
          simpa [gWriteIdxs, pendingW] using hwr
      · rw [Bool.not_eq_true] at hw
        rw [btStep_guest_write_fail o st i hg hw]
        unfold BtInv
        refine ⟨by simp, h2, ?_, ?_, ?_, by simp⟩
        · simpa [List.filter_append, isGuestEv] using GTrace.wfail h3
        · show gReadIdxs (st.events ++ [BtEvent.gWrite i false]) = _
          rw [gReadIdxs_append, h4]
          simp [gReadIdxs]
        · show gWriteIdxs (st.events ++ [BtEvent.gWrite i false]) = _
          rw [gWriteIdxs_append]
          simpa [gWriteIdxs, pendingW] using hwr
    | reconnect =>
      rw [hg] at h3 h5
      simp only [pendingW, Nat.sub_zero] at h5
      cases hl : st.lock with
      | none =>
        rw [btStep_guest_reconnect_free o st hg hl]
        unfold BtInv
        refine ⟨fun _ => rfl, ?_, GTrace.toOpen h3, h4, ?_, by simp⟩
        · intro hhh
          have hB := h2 hhh
          rw [hl] at hB
          cases hB
        · simpa [pendingW] using h5
      | some th =>
        rw [btStep_guest_reconnect_blocked o st th hg hl]
        refine ⟨h1, h2, ?_, h4, ?_, h6⟩
        · rw [hg]; exact h3
        · rw [hg]; simpa [pendingW] using h5
    | opening =>
      rw [hg] at h3 h5
      simp only [pendingW, Nat.sub_zero] at h5
      rw [btStep_guest_opening o st hg]
      unfold BtInv
      refine ⟨by simp, ?_, ?_, ?_, ?_, by simp⟩
      · intro hhh
        have hA := h2 hhh
        have hB := h1 hg
        rw [hA] at hB
        simp at hB
      · simpa [List.filter_append, isGuestEv] using GTrace.opened h3
      · show gReadIdxs (st.events ++ [BtEvent.gOpen (st.opens + 1)]) = _
        rw [gReadIdxs_append, h4]
        simp [gReadIdxs]
      · show gWriteIdxs (st.events ++ [BtEvent.gOpen (st.opens + 1)]) = _
        rw [gWriteIdxs_append, h5]
        simp [gWriteIdxs, pendingW]
  | host =>
    cases hh : st.h with
    | read =>
      by_cases hr : o.sockRead st.sock st.hReads
      · rw [btStep_host_read_ok o st hh hr]
        unfold BtInv
        refine ⟨h1, by simp, ?_, ?_, ?_, h6⟩
        · simpa [List.filter_append, isGuestEv] using h3
        · show gReadIdxs (st.events ++ [BtEvent.hRead st.hReads true]) = _
          rw [gReadIdxs_append, h4]
          simp [gReadIdxs]
        · show gWriteIdxs (st.events ++ [BtEvent.hRead st.hReads true]) = _
          rw [gWriteIdxs_append, h5]
          simp [gWriteIdxs]
      · rw [Bool.not_eq_true] at hr
        rw [btStep_host_read_fail o st hh hr]
        unfold BtInv
        refine ⟨h1, by simp, ?_, ?_, ?_, h6⟩
        · simpa [List.filter_append, isGuestEv] using h3
        · show gReadIdxs (st.events ++ [BtEvent.hRead st.hReads false]) = _
          rw [gReadIdxs_append, h4]
          simp [gReadIdxs]
        · show gWriteIdxs (st.events ++ [BtEvent.hRead st.hReads false]) = _
          rw [gWriteIdxs_append, h5]
          simp [gWriteIdxs]
    | write i =>
      rw [btStep_host_write o st i hh]
      unfold BtInv
      refine ⟨h1, by simp, ?_, ?_, ?_, h6⟩
      · simpa [List.filter_append, isGuestEv] using h3
      · show gReadIdxs (st.events ++ [BtEvent.hWrite i]) = _
        rw [gReadIdxs_append, h4]
        simp [gReadIdxs]
      · show gWriteIdxs (st.events ++ [BtEvent.hWrite i]) = _
        rw [gWriteIdxs_append, h5]
        simp [gWriteIdxs]
    | reconnect =>
      cases hl : st.lock with
      | none =>
        rw [btStep_host_reconnect_free o st hh hl]
        unfold BtInv
        refine ⟨?_, fun _ => rfl, h3, h4, h5, h6⟩
        intro hgg
        have hA := h1 hgg
        rw [hl] at hA
        cases hA
      | some th =>
        rw [btStep_host_reconnect_blocked o st th hh hl]
        exact ⟨h1, h2, h3, h4, h5, h6⟩
    | opening =>
      rw [btStep_host_opening o st hh]
      unfold BtInv
      refine ⟨?_, by simp, ?_, ?_, ?_, h6⟩
      · intro hgg
        have hA := h1 hgg
        have hB := h2 hh
        rw [hA] at hB
        simp at hB
      · simpa [List.filter_append, isGuestEv] using h3
      · show gReadIdxs (st.events ++ [BtEvent.hOpen (st.opens + 1)]) = _
        rw [gReadIdxs_append, h4]
        simp [gReadIdxs]
      · show gWriteIdxs (st.events ++ [BtEvent.hOpen (st.opens + 1)]) = _
        rw [gWriteIdxs_append, h5]
        simp [gWriteIdxs]

theorem btInv_reachable (o : BtOracle) (st : BtState) (h : BtReachable o st) :
    BtInv st := by
  obtain ⟨sched, n, rfl⟩ := h
  induction n with
  | zero => exact btInv_init
  | succ n ih => exact btInv_step o (sched n) _ ih

theorem snoc_eq_append_cons {A : Type} {evs l₁ l₂ : List A} {e x : A}
    (h : evs ++ [e] = l₁ ++ x :: l₂) :
    (l₂ = [] ∧ e = x ∧ evs = l₁) ∨
    (∃ t, l₂ = t ++ [e] ∧ evs = l₁ ++ x :: t) := by
  rcases List.eq_nil_or_concat l₂ with rfl | ⟨t, y, hty⟩
  · obtain ⟨he, hx⟩ := List.append_inj' h rfl
    injection hx with hx1 _
    exact Or.inl ⟨rfl, hx1, he⟩
  · rw [List.concat_eq_append] at hty
    subst hty
    have h2 : evs ++ [e] = (l₁ ++ x :: t) ++ [y] := by
      rw [h]; simp
    obtain ⟨he, hy⟩ := List.append_inj' h2 rfl
    injection hy with hy1 _
    subst hy1
    exact Or.inr ⟨t, rfl, he⟩

theorem failTail_nil_pc {pc : GuestPc} (h : failTail [] pc) :
    pc = GuestPc.reconnect ∨ pc = GuestPc.opening := h

theorem failTail_single {e1 : BtEvent} {pc : GuestPc} (h : failTail [e1] pc) :
    (∃ g, e1 = BtEvent.gOpen g) ∧ pc = GuestPc.read := by
  cases e1 with
  | gOpen g => exact ⟨⟨g, rfl⟩, h⟩
  | gRead j => exact False.elim h
  | gWrite j ok => exact False.elim h
  | hRead j ok => exact False.elim h
  | hWrite j => exact False.elim h
  | hOpen g => exact False.elim h

theorem failTail_long {e1 e2 : BtEvent} {rest : List BtEvent} {pc pc! : GuestPc}
    (h : failTail (e1 :: e2 :: rest) pc) (l : List BtEvent) :
    failTail (e1 :: e2 :: (rest ++ l)) pc! := by
  cases e1 <;> cases e2 <;> first | exact trivial | exact False.elim h

theorem failTail_repc {e1 e2 : BtEvent} {rest : List BtEvent} {pc pc! : GuestPc}
    (h : failTail (e1 :: e2 :: rest) pc) : failTail (e1 :: e2 :: rest) pc! := by
  cases e1 <;> cases e2 <;> first | exact trivial | exact False.elim h

theorem gtrace_failTail {pc : GuestPc} {r : Nat} {t : List BtEvent}
    (h : GTrace pc r t) :
    ∀ a i b, t = a ++ BtEvent.gWrite i false :: b → failTail b pc := by
  induction h with
  | start =>
    intro a i b hab
    cases a <;> simp at hab
  | read hprev ih =>
    intro a i b hab
    rcases snoc_eq_append_cons hab with ⟨rfl, he, rfl⟩ | ⟨s, rfl, rfl⟩
    · cases he
    · have hft := ih a i s rfl
      rcases s with _ | ⟨e1, _ | ⟨e2, rest⟩⟩
      · rcases failTail_nil_pc hft with h1 | h1 <;> cases h1
      · obtain ⟨⟨g, rfl⟩, -⟩ := failTail_single hft
        exact trivial
      · exact failTail_long hft _
  | wok hprev ih =>
    intro a i b hab
    rcases snoc_eq_append_cons hab with ⟨rfl, he, rfl⟩ | ⟨s, rfl, rfl⟩
    · simp at he
    · have hft := ih a i s rfl
      rcases s with _ | ⟨e1, _ | ⟨e2, rest⟩⟩
      · rcases failTail_nil_pc hft with h1 | h1 <;> cases h1
      · obtain ⟨⟨g, rfl⟩, hpc⟩ := failTail_single hft
        cases hpc
      · exact failTail_long hft _
  | wfail hprev ih =>
    intro a i b hab
    rcases snoc_eq_append_cons hab with ⟨rfl, he, rfl⟩ | ⟨s, rfl, rfl⟩
    · exact Or.inl rfl
    · have hft := ih a i s rfl
      rcases s with _ | ⟨e1, _ | ⟨e2, rest⟩⟩
      · rcases failTail_nil_pc hft with h1 | h1 <;> cases h1
      · obtain ⟨⟨g, rfl⟩, hpc⟩ := failTail_single hft
        cases hpc
      · exact failTail_long hft _
  | toOpen hprev ih =>
    intro a i b hab
    have hft := ih a i b hab
    rcases b with _ | ⟨e1, _ | ⟨e2, rest⟩⟩
    · exact Or.inr rfl
    · obtain ⟨⟨g, rfl⟩, hpc⟩ := failTail_single hft
      cases hpc
    · exact failTail_repc hft
  | opened hprev ih =>
    intro a i b hab
    rcases snoc_eq_append_cons hab with ⟨rfl, he, rfl⟩ | ⟨s, rfl, rfl⟩
    · cases he
    · have hft := ih a i s rfl
      rcases s with _ | ⟨e1, _ | ⟨e2, rest⟩⟩
      · exact rfl
      · obtain ⟨⟨g, rfl⟩, hpc⟩ := failTail_single hft
        cases hpc
      · exact failTail_long hft _

theorem filter_decomp (l₁ l₂ : List BtEvent) (i : Nat) :
    (l₁ ++ BtEvent.gWrite i false :: l₂).filter isGuestEv
      = l₁.filter isGuestEv ++ BtEvent.gWrite i false :: l₂.filter isGuestEv := by
  simp [List.filter_append, isGuestEv]


/-- Claim C7: in the bridge service, after a failed guest-to-host write the
guest loop performs exactly one reconnect attempt before reading its next
chunk: in every reachable state, whatever guest events follow a failed write
are nothing yet, exactly one completed reconnect, or one completed reconnect
followed by the next read (so the read side is never abandoned); and while
the guest loop is reconnecting, the host loop is never blocked when it is at
its read or write step, so the opposite direction continues uninterrupted. -/
theorem bt_write_fail_single_reconnect (o : BtOracle) (st : BtState)
    (hr : BtReachable o st) :
    (∀ l₁ i l₂, st.events = l₁ ++ BtEvent.gWrite i false :: l₂ →
       l₂.filter isGuestEv = [] ∨
       (∃ gen, l₂.filter isGuestEv = [BtEvent.gOpen gen]) ∨
       (∃ gen j rest,
          l₂.filter isGuestEv = BtEvent.gOpen gen :: BtEvent.gRead j :: rest)) ∧
    ((st.g = GuestPc.reconnect ∨ st.g = GuestPc.opening) →
       (st.h = HostPc.read ∨ ∃ i, st.h = HostPc.write i) →
       hostStep o st ≠ none) := by
  obtain ⟨-, -, h3, -, -, -⟩ := btInv_reachable o st hr
  constructor
  · intro l₁ i l₂ hev
    have hft := gtrace_failTail h3 (l₁.filter isGuestEv) i (l₂.filter isGuestEv)
      (by rw [hev, filter_decomp])
    rcases hq : l₂.filter isGuestEv with _ | ⟨e1, _ | ⟨e2, rest⟩⟩
    · exact Or.inl rfl
    · rw [hq] at hft
      obtain ⟨⟨g, rfl⟩, -⟩ := failTail_single hft
      exact Or.inr (Or.inl ⟨g, rfl⟩)
    · rw [hq] at hft
      cases e1 with
      | gOpen g =>
        cases e2 with
        | gRead j => exact Or.inr (Or.inr ⟨g, j, rest, rfl⟩)
        | gWrite j ok => exact False.elim hft
        | gOpen g2 => exact False.elim hft
        | hRead j ok => exact False.elim hft
        | hWrite j => exact False.elim hft
        | hOpen g2 => exact False.elim hft
      | gRead j => cases e2 <;> exact False.elim hft
      | gWrite j ok => cases e2 <;> exact False.elim hft
      | hRead j ok => cases e2 <;> exact False.elim hft
      | hWrite j => cases e2 <;> exact False.elim hft
      | hOpen g2 => cases e2 <;> exact False.elim hft
  · intro _ hh
    rcases hh with hh | ⟨i, hh⟩
    · cases hc : o.sockRead st.sock st.hReads <;> simp [hostStep, hh, hc]
    · simp [hostStep, hh]

/-- Claim C9: reconnect attempts from the two bridge threads are serialized
by openSocket's single mutex: in no reachable state are both loops inside
openSocket at once. -/
theorem bt_reconnect_mutex (o : BtOracle) (st : BtState)
    (hr : BtReachable o st) :
    ¬ (st.g = GuestPc.opening ∧ st.h = HostPc.opening) := by
  obtain ⟨h1, h2, -, -, -, -⟩ := btInv_reachable o st hr
  rintro ⟨hg, hh⟩
  have hA := h1 hg
  have hB := h2 hh
  rw [hA] at hB
  simp at hB

theorem bt_write_fail_single_reconnect_witness :
    (List.filter isGuestEv ([] : List BtEvent) = [] ∨
      (∃ gen, List.filter isGuestEv ([] : List BtEvent) = [BtEvent.gOpen gen]) ∨
      (∃ gen j rest, List.filter isGuestEv ([] : List BtEvent)
          = BtEvent.gOpen gen :: BtEvent.gRead j :: rest)) ∧
    hostStep oFail (btRun oFail schedG 2) ≠ none := by
  refine ⟨(bt_write_fail_single_reconnect oFail (btRun oFail schedG 2)
      ⟨schedG, 2, rfl⟩).1 [BtEvent.gRead 0] 0 [] (by decide), ?_⟩
  exact (bt_write_fail_single_reconnect oFail (btRun oFail schedG 2)
      ⟨schedG, 2, rfl⟩).2 (Or.inl (by decide)) (Or.inl (by decide))

theorem bt_reconnect_mutex_witness :
    ¬ (btInit.g = GuestPc.opening ∧ btInit.h = HostPc.opening) :=
  bt_reconnect_mutex oFail btInit ⟨schedG, 0, rfl⟩

theorem btStep_events (o : BtOracle) (t : BtThread) (st : BtState) :
    (btStep o t st).events = st.events ∨
    ∃ e, (btStep o t st).events = st.events ++ [e] := by
  cases t with
  | guest =>
    cases hg : st.g with
    | read => exact Or.inr ⟨_, by rw [btStep_guest_read o st hg]⟩
    | write i =>
      by_cases hw : o.writeOk st.sock i
      · exact Or.inr ⟨_, by rw [btStep_guest_write_ok o st i hg hw]⟩
      · rw [Bool.not_eq_true] at hw
        exact Or.inr ⟨_, by rw [btStep_guest_write_fail o st i hg hw]⟩
    | reconnect =>
      cases hl : st.lock with
      | none => exact Or.inl (by rw [btStep_guest_reconnect_free o st hg hl])
      | some th => exact Or.inl (by rw [btStep_guest_reconnect_blocked o st th hg hl])
    | opening => exact Or.inr ⟨_, by rw [btStep_guest_opening o st hg]⟩
  | host =>
    cases hh : st.h with
    | read =>
      by_cases hc : o.sockRead st.sock st.hReads
      · exact Or.inr ⟨_, by rw [btStep_host_read_ok o st hh hc]⟩
      · rw [Bool.not_eq_true] at hc
        exact Or.inr ⟨_, by rw [btStep_host_read_fail o st hh hc]⟩
    | write i => exact Or.inr ⟨_, by rw [btStep_host_write o st i hh]⟩
    | reconnect =>
      cases hl : st.lock with
      | none => exact Or.inl (by rw [btStep_host_reconnect_free o st hh hl])
      | some th => exact Or.inl (by rw [btStep_host_reconnect_blocked o st th hh hl])
    | opening => exact Or.inr ⟨_, by rw [btStep_host_opening o st hh]⟩

theorem btRun_events_take (o : BtOracle) (sched : Nat → BtThread) (n k : Nat)
    (hk : k ≤ (btRun o sched n).events.length) :
    ∃ m, (btRun o sched m).events = (btRun o sched n).events.take k := by
  induction n with
  | zero =>
    refine ⟨0, ?_⟩
    simp [btRun, btInit]
  | succ n ih =>
    have hstep : btRun o sched (n + 1) = btStep o (sched n) (btRun o sched n) := rfl
    rcases btStep_events o (sched n) (btRun o sched n) with he | ⟨e, he⟩
    · rw [hstep, he] at hk ⊢
      exact ih hk
    · rw [hstep, he] at hk ⊢
      by_cases hk2 : k ≤ (btRun o sched n).events.length
      · obtain ⟨m, hm⟩ := ih hk2
        exact ⟨m, by rw [hm, List.take_append_of_le_length hk2]⟩
      · refine ⟨n + 1, ?_⟩
        rw [hstep, he]
        refine (List.take_of_length_le ?_).symm
        simp at hk ⊢
        omega

theorem btReachable_take (o : BtOracle) (st : BtState) (hr : BtReachable o st)
    (k : Nat) :
    ∃ s, BtReachable o s ∧ s.events = st.events.take k := by
  obtain ⟨sched, n, rfl⟩ := hr
  by_cases hk : k ≤ (btRun o sched n).events.length
  · obtain ⟨m, hm⟩ := btRun_events_take o sched n k hk
    exact ⟨btRun o sched m, ⟨sched, m, rfl⟩, hm⟩
  · exact ⟨btRun o sched n, ⟨sched, n, rfl⟩,
      (List.take_of_length_le (by omega)).symm⟩

theorem range_concat_inj {A : List Nat} {i n : Nat}
    (h : A ++ [i] = List.range n) : A = List.range i ∧ n = i + 1 := by
  cases n with
  | zero => simp at h
  | succ m =>
    rw [List.range_succ] at h
    obtain ⟨hA, hi⟩ := List.append_inj' h rfl
    injection hi with hi1 _
    subst hi1
    exact ⟨hA, rfl⟩

theorem range_append_inv {k : Nat} {X : List Nat} {N : Nat}
    (h : List.range k ++ X = List.range N) : ∀ j ∈ X, k ≤ j := by
  have hlen : k + X.length = N := by
    have hL := congrArg List.length h
    simpa using hL
  subst hlen
  rw [List.range_add] at h
  have hX := (List.append_inj h (by simp)).2
  intro j hj
  rw [hX] at hj
  simp only [List.mem_map, List.mem_range] at hj
  obtain ⟨m, hm, hjm⟩ := hj
  omega

theorem mem_gWriteIdxs {evs : List BtEvent} {j : Nat} :
    j ∈ gWriteIdxs evs ↔ ∃ ok, BtEvent.gWrite j ok ∈ evs := by
  simp only [gWriteIdxs, List.mem_filterMap]
  constructor
  · rintro ⟨e, he, hm⟩
    rcases e with i | ⟨i, ok⟩ | g | ⟨i, ok⟩ | i | g
    · simp at hm
    · simp at hm
      exact ⟨ok, hm ▸ he⟩
    · simp at hm
    · simp at hm
    · simp at hm
    · simp at hm
  · rintro ⟨ok, he⟩
    exact ⟨BtEvent.gWrite j ok, he, rfl⟩

theorem mem_gReadIdxs {evs : List BtEvent} {j : Nat} :
    j ∈ gReadIdxs evs ↔ BtEvent.gRead j ∈ evs := by
  simp only [gReadIdxs, List.mem_filterMap]
  constructor
  · rintro ⟨e, he, hm⟩
    rcases e with i | ⟨i, ok⟩ | g | ⟨i, ok⟩ | i | g
    · simp at hm
      exact hm ▸ he
    · simp at hm
    · simp at hm
    · simp at hm
    · simp at hm
    · simp at hm
  · intro he
    exact ⟨BtEvent.gRead j, he, rfl⟩

/-- Claim C10: in the bridge service's guest-to-host direction, a chunk whose
socket write failed is discarded and never retransmitted: in every reachable
state, after a failed write of chunk i no later write event carries index i
again, and every later read is of a strictly fresher chunk (the loop proceeds
to read fresh data from the local pipe). -/
theorem guest_chunk_discarded_no_retransmit (o : BtOracle) (st : BtState)
    (hr : BtReachable o st) :
    ∀ l₁ i l₂, st.events = l₁ ++ BtEvent.gWrite i false :: l₂ →
      (∀ ok, BtEvent.gWrite i ok ∉ l₂) ∧
      (∀ j, BtEvent.gRead j ∈ l₂ → i < j) := by
  intro l₁ i l₂ hev
  obtain ⟨s, hrs, hsev⟩ := btReachable_take o st hr (l₁.length + 1)
  have htake : (l₁ ++ BtEvent.gWrite i false :: l₂).take (l₁.length + 1)
      = l₁ ++ [BtEvent.gWrite i false] := by
    rw [List.take_append]
    rfl
  rw [hev, htake] at hsev
  obtain ⟨-, -, hs3, hs4, hs5, -⟩ := btInv_reachable o s hrs
  have hft := gtrace_failTail hs3 (l₁.filter isGuestEv) i []
    (by rw [hsev, filter_decomp]; rfl)
  have hpc := failTail_nil_pc hft
  have hpw : pendingW s.g = 0 := by
    rcases hpc with h | h <;> simp [pendingW, h]
  rw [hpw, Nat.sub_zero, hsev, gWriteIdxs_append] at hs5
  have hs5b : gWriteIdxs l₁ ++ [i] = List.range s.gReads := by
    rw [← hs5]
    simp [gWriteIdxs]
  obtain ⟨hW1, hN⟩ := range_concat_inj hs5b
  rw [hsev, gReadIdxs_append] at hs4
  have hR1 : gReadIdxs l₁ = List.range (i + 1) := by
    rw [← hN, ← hs4]
    simp [gReadIdxs]
  obtain ⟨-, -, -, h4, h5, -⟩ := btInv_reachable o st hr
  have hconsW : gWriteIdxs (BtEvent.gWrite i false :: l₂) = i :: gWriteIdxs l₂ := by
    simp [gWriteIdxs]
  have hconsR : gReadIdxs (BtEvent.gWrite i false :: l₂) = gReadIdxs l₂ := by
    simp [gReadIdxs]
  have hWfull : List.range (i + 1) ++ gWriteIdxs l₂
      = List.range (st.gReads - pendingW st.g) := by
    rw [← h5, hev, gWriteIdxs_append, hconsW, hW1, List.range_succ]
    simp
  have hRfull : List.range (i + 1) ++ gReadIdxs l₂ = List.range st.gReads := by
    rw [← h4, hev, gReadIdxs_append, hconsR, hR1]
  have hWbound := range_append_inv hWfull
  have hRbound := range_append_inv hRfull
  refine ⟨?_, ?_⟩
  · intro ok hmem
    have hle := hWbound i (mem_gWriteIdxs.mpr ⟨ok, hmem⟩)
    omega
  · intro j hj
    have hle := hRbound j (mem_gReadIdxs.mpr hj)
    omega

theorem guest_chunk_discarded_no_retransmit_witness :
    (∀ ok, BtEvent.gWrite 0 ok ∉ ([] : List BtEvent)) ∧
    (∀ j, BtEvent.gRead j ∈ ([] : List BtEvent) → 0 < j) :=
  guest_chunk_discarded_no_retransmit oFail (btRun oFail schedG 2)
    ⟨schedG, 2, rfl⟩ [BtEvent.gRead 0] 0 [] (by decide)

end Cuttlefish
